import Mathlib

/-
  Verification of the LedgerWell backup / reconciliation subsystem.

  The development shallowly embeds the TypeScript sources:
  * `CSV` namespace: `src/utils/csvBackup.ts` (serialization codec, schema
    parsing, validator).  Dates are carried as their ISO text, amounts as a
    model `JNum` of JavaScript numbers (rational, NaN or an infinity).
  * `LW` namespace: `src/utils/storage.ts` (persistence layer over a pure
    `Store` state), `src/utils/excelImport.ts` (duplicate heuristic) and the
    `executeImport` reconciliation engine of the settings screen.  Dates are
    epoch milliseconds (`Int`), amounts are rationals.
  JavaScript ambient time (`new Date()`, `Date.now()`) is threaded as an
  explicit `now` parameter.
-/

/- The rational-arithmetic definitions are sealed in the library; reopen them
so that concrete runs of the embedded code evaluate inside proofs. -/
set_option allowUnsafeReducibility true in
attribute [semireducible] Rat.ofScientific Rat.mul Rat.inv Rat.add Rat.sub

namespace LedgerWell

/-- Model of a JavaScript number: a rational, NaN, or one of the infinities. -/
inductive JNum where
  | num (q : ℚ)
  | nan
  | inf
  | ninf
deriving DecidableEq

/-- JavaScript `a <= b` (false whenever either side is NaN). -/
def JNum.leb : JNum → JNum → Bool
  | .nan, _ => false
  | _, .nan => false
  | .num a, .num b => a ≤ b
  | .ninf, _ => true
  | _, .ninf => false
  | _, .inf => true
  | .inf, _ => false

/-- JavaScript `isNaN`. -/
def JNum.isNaNb : JNum → Bool
  | .nan => true
  | _ => false

/-- Fractional decimal digits of a nonnegative rational below 1 (long
division, at most `fuel` digits). -/
def fracDigits : Nat → ℚ → String
  | 0, _ => ""
  | fuel + 1, r =>
    if r = 0 then ""
    else
      let r10 := r * 10
      let d : Nat := r10.num.toNat / r10.den
      toString d ++ fracDigits fuel (r10 - (d : ℚ))

/-- Decimal rendering of a rational, modelling JavaScript number-to-string
conversion on the terminating decimals the app manipulates. -/
def ratDecimalString (q : ℚ) : String :=
  let sign := if q < 0 then "-" else ""
  let p := |q|
  let ip : Nat := p.num.toNat / p.den
  let fr := p - (ip : ℚ)
  sign ++ toString ip ++ (if fr = 0 then "" else "." ++ fracDigits 20 fr)

/-- JavaScript string conversion of a number (as in template literals). -/
def JNum.toJSString : JNum → String
  | .num q => ratDecimalString q
  | .nan => "NaN"
  | .inf => "Infinity"
  | .ninf => "-Infinity"

/-- JavaScript boolean-to-string conversion. -/
def boolToJSString (b : Bool) : String := if b then "true" else "false"

/- Character-level helpers mirroring the JavaScript string primitives used by
the CSV codec. -/

/-- Digits of a char list interpreted as a natural number accumulator. -/
def digitsToNat : Nat → List Char → Nat
  | acc, [] => acc
  | acc, c :: rest => digitsToNat (acc * 10 + (c.toNat - '0'.toNat)) rest

/-- Value of a fractional digit string, e.g. "25" ↦ 0.25. -/
def fracValue : List Char → ℚ
  | [] => 0
  | c :: rest => (((c.toNat - '0'.toNat) : ℚ) + fracValue rest) / 10

/-- JavaScript `parseFloat` on the decimal numerals the app produces:
optional leading whitespace and sign, an `Infinity` literal, or digits with an
optional fractional part; anything with no leading numeral parses to NaN. -/
def jsParseFloat (s : String) : JNum :=
  let l := s.data.dropWhile Char.isWhitespace
  let (neg, l) :=
    match l with
    | '-' :: rest => (true, rest)
    | '+' :: rest => (false, rest)
    | _ => (false, l)
  match l with
  | 'I' :: 'n' :: 'f' :: 'i' :: 'n' :: 'i' :: 't' :: 'y' :: _ =>
    if neg then JNum.ninf else JNum.inf
  | _ =>
    let intDigits := l.takeWhile Char.isDigit
    let rest := l.dropWhile Char.isDigit
    let fracPart :=
      match rest with
      | '.' :: r => r.takeWhile Char.isDigit
      | _ => []
    if intDigits = [] ∧ fracPart = [] then JNum.nan
    else
      let v : ℚ := (digitsToNat 0 intDigits : ℚ) + fracValue fracPart
      JNum.num (if neg then -v else v)

/-- JavaScript `String.prototype.trim` on a char list. -/
def trimChars (l : List Char) : List Char :=
  ((l.dropWhile Char.isWhitespace).reverse.dropWhile Char.isWhitespace).reverse

/-- JavaScript `String.prototype.trim`. -/
def jsTrim (s : String) : String := String.mk (trimChars s.data)

/-- JavaScript `String.prototype.toLowerCase` (ASCII). -/
def jsToLower (s : String) : String := String.mk (s.data.map Char.toLower)

/-- JavaScript `String.prototype.split` with a single-character separator. -/
def splitOnChar (sep : Char) : List Char → List (List Char)
  | [] => [[]]
  | c :: rest =>
    let r := splitOnChar sep rest
    if c = sep then [] :: r
    else
      match r with
      | [] => [[c]]
      | h :: t => (c :: h) :: t

/-- `s.split(sep)` as strings. -/
def jsSplit (sep : Char) (s : String) : List String :=
  (splitOnChar sep s.data).map String.mk

/-- Whether a char list contains a given character. -/
def containsChar (c : Char) (l : List Char) : Bool := l.contains c

/-- Double every quote character (JavaScript `value.replace(/"/g, '""')`). -/
def escQuotes : List Char → List Char
  | [] => []
  | '"' :: rest => '"' :: '"' :: escQuotes rest
  | c :: rest => c :: escQuotes rest

/-- Collapse doubled quotes (JavaScript `result.replace(/""/g, '"')`). -/
def unescQuotes : List Char → List Char
  | [] => []
  | ['"'] => ['"']
  | '"' :: '"' :: rest => '"' :: unescQuotes rest
  | c :: rest => c :: unescQuotes rest

namespace CSV

/-- `Currency` of `src/types/index.ts`, as handled by the CSV codec. -/
structure Currency where
  id : String
  code : String
  name : String
  symbol : String
  rate : JNum
  isCustom : Bool
deriving DecidableEq

/-- `Account`; the optional `description` is carried as a string, the empty
string standing for an absent value (both are falsy in JavaScript and the code
only ever uses them through `|| ''` / truthiness).  Dates are their ISO text
(`toISOString` returns string-typed dates unchanged). -/
structure Account where
  id : String
  name : String
  description : String
  totalOwed : JNum
  totalOwedToMe : JNum
  currency : Currency
  createdAt : String
  updatedAt : String
deriving DecidableEq

/-- `Transaction`; `type` is kept as a runtime string because the validator
defends against values outside `debt`/`credit`. -/
structure Transaction where
  id : String
  accountId : String
  type : String
  amount : JNum
  currency : Currency
  name : String
  description : String
  date : String
  createdAt : String
  updatedAt : String
deriving DecidableEq

/-- `AppSettings`. -/
structure AppSettings where
  language : String
  theme : String
  defaultCurrency : Currency
  autoUpdateRates : Bool
deriving DecidableEq

/-- `BackupData` of `src/utils/csvBackup.ts`. -/
structure BackupData where
  version : String
  exportDate : String
  accounts : List Account
  transactions : List Transaction
  settings : AppSettings
  customCurrencies : List Currency
deriving DecidableEq

/-- `escapeCSV`: wrap in quotes when the value holds a comma, a quote or a
line break, doubling internal quotes. -/
def escapeCSV (value : String) : String :=
  if value = "" then ""
  else
    let needsQuotes :=
      containsChar ',' value.data || containsChar '"' value.data ||
        containsChar '\n' value.data
    if needsQuotes then String.mk ('"' :: escQuotes value.data ++ ['"'])
    else value

/-- `unescapeCSV`: trim, strip one layer of surrounding quotes, collapse
doubled quotes. -/
def unescapeCSV (value : String) : String :=
  if value = "" then ""
  else
    let r := trimChars value.data
    if r.head? = some '"' ∧ r.getLast? = some '"' then
      String.mk (unescQuotes (r.drop 1).dropLast)
    else String.mk r

/-- State machine of `parseCSVLine`: walks the characters with an
`inQuotes` flag and the current field accumulated in reverse.  A quote inside
an open quoted field doubled with the following character is an escaped quote
(the source's one-character lookahead); otherwise a quote toggles the flag. -/
def parseLineAux : List Char → Bool → List Char → List String
  | [], _, cur => [unescapeCSV (String.mk cur.reverse)]
  | '"' :: '"' :: rest, true, cur => parseLineAux rest true ('"' :: cur)
  | '"' :: rest, true, cur => parseLineAux rest false cur
  | '"' :: rest, false, cur => parseLineAux rest true cur
  | ',' :: rest, true, cur => parseLineAux rest true (',' :: cur)
  | ',' :: rest, false, cur => unescapeCSV (String.mk cur.reverse) :: parseLineAux rest false []
  | c :: rest, inQuotes, cur => parseLineAux rest inQuotes (c :: cur)

/-- `parseCSVLine`: quote-aware splitting of one line into fields. -/
def parseCSVLine (line : String) : List String :=
  parseLineAux line.data false []

/-- Set a key in an object/map, replacing an existing binding in place or
appending a new one (JavaScript `obj[key] = value` / `Map.set`). -/
def setAssoc (m : List (String × String)) (k v : String) : List (String × String) :=
  match m with
  | [] => [(k, v)]
  | (k', v') :: rest => if k' = k then (k, v) :: rest else (k', v') :: setAssoc rest k v

/-- Read a key from an object built with `setAssoc`; absent keys read as the
empty string (undefined and `''` are used interchangeably by the code). -/
def getAssoc (m : List (String × String)) (k : String) : String :=
  match m.find? (fun p => p.1 = k) with
  | some p => p.2
  | none => ""

/-- JavaScript `x || d` for strings: the empty string falls back to `d`. -/
def orDefault (v d : String) : String := if v = "" then d else v

/-- `parseKeyValueSection`: each line with a comma at a positive index
contributes `key.trim() ↦ unescapeCSV(valueText)`. -/
def parseKeyValueSection (lines : List String) : List (String × String) :=
  lines.foldl
    (fun m line =>
      match line.data.findIdx? (fun c => c = ',') with
      | some i =>
        if 0 < i then
          setAssoc m (jsTrim (String.mk (line.data.take i)))
            (unescapeCSV (String.mk (line.data.drop (i + 1))))
        else m
      | none => m) []

/-- Row access in `parseTableSection`: `row[headers[j]] = values[j] || ''`,
later duplicate headers overwriting earlier ones. -/
def rowGet (headers values : List String) (key : String) : String :=
  (headers.enum.foldl
    (fun acc p => if p.2 = key then ((values.get? p.1).getD "") else acc) "")

/-- `parseTableSection`: first line is the header row, each further line is
mapped to a record through `mapper` (the mappers below are total, so the
per-row `try/catch` of the source never fires). -/
def parseTableSection {α : Type} (mapper : (String → String) → α) (lines : List String) : List α :=
  match lines with
  | [] => []
  | hdr :: rest =>
    let headers := parseCSVLine hdr
    rest.map (fun line => mapper (rowGet headers (parseCSVLine line)))

/-- The five recognised sections of a backup file. -/
structure Sections where
  metadata : List String
  settings : List String
  customCurrencies : List String
  accounts : List String
  transactions : List String

/-- Empty section assignment. -/
def Sections.empty : Sections := ⟨[], [], [], [], []⟩

/-- Append a content line to the section named by `cur`; lines outside the
five known sections (or before any header) are discarded. -/
def Sections.push (secs : Sections) (cur : String) (line : String) : Sections :=
  if cur = "METADATA" then { secs with metadata := secs.metadata ++ [line] }
  else if cur = "SETTINGS" then { secs with settings := secs.settings ++ [line] }
  else if cur = "CUSTOM_CURRENCIES" then
    { secs with customCurrencies := secs.customCurrencies ++ [line] }
  else if cur = "ACCOUNTS" then { secs with accounts := secs.accounts ++ [line] }
  else if cur = "TRANSACTIONS" then { secs with transactions := secs.transactions ++ [line] }
  else secs

/-- Split the trimmed, non-blank lines into sections: a `[NAME]` line switches
the current section, other lines are appended to it. -/
def splitSections (lines : List String) : Sections :=
  (lines.foldl
    (fun (st : String × Sections) line =>
      if line.data.head? = some '[' ∧ line.data.getLast? = some ']' then
        (String.mk (line.data.drop 1).dropLast, st.2)
      else (st.1, st.2.push st.1 line))
    ("", Sections.empty)).2

/-- `toISOString` helper: string dates pass through, a falsy date falls back
to the current time (threaded as `nowIso`). -/
def toISOStringD (nowIso : String) (date : String) : String :=
  if date = "" then nowIso else date

/-- One `key,value` line of a key-value section. -/
def kvLine (key value : String) : String := key ++ "," ++ value

/-- `createCSVContent`: the sectioned CSV text of a backup.  Numbers and
booleans are interpolated with their JavaScript string conversion; string
fields go through `escapeCSV`. -/
def createCSVContent (nowIso : String) (data : BackupData) : String :=
  let settingsLines :=
    ["[SETTINGS]",
     kvLine "language" (escapeCSV data.settings.language),
     kvLine "theme" (escapeCSV data.settings.theme),
     kvLine "defaultCurrency_id" (escapeCSV data.settings.defaultCurrency.id),
     kvLine "defaultCurrency_code" (escapeCSV data.settings.defaultCurrency.code),
     kvLine "defaultCurrency_name" (escapeCSV data.settings.defaultCurrency.name),
     kvLine "defaultCurrency_symbol" (escapeCSV data.settings.defaultCurrency.symbol),
     kvLine "defaultCurrency_rate" data.settings.defaultCurrency.rate.toJSString,
     kvLine "defaultCurrency_isCustom" (boolToJSString data.settings.defaultCurrency.isCustom),
     kvLine "autoUpdateRates" (boolToJSString data.settings.autoUpdateRates),
     ""]
  let currencyLines :=
    ["[CUSTOM_CURRENCIES]", "id,code,name,symbol,rate,isCustom"] ++
    data.customCurrencies.map (fun currency =>
      String.intercalate ","
        [escapeCSV currency.id, escapeCSV currency.code, escapeCSV currency.name,
         escapeCSV currency.symbol, currency.rate.toJSString,
         boolToJSString currency.isCustom]) ++ [""]
  let accountLines :=
    ["[ACCOUNTS]",
     "id,name,description,totalOwed,totalOwedToMe,currency_id,currency_code,currency_name,currency_symbol,currency_rate,currency_isCustom,createdAt,updatedAt"] ++
    data.accounts.map (fun account =>
      String.intercalate ","
        [escapeCSV account.id, escapeCSV account.name, escapeCSV account.description,
         account.totalOwed.toJSString, account.totalOwedToMe.toJSString,
         escapeCSV account.currency.id, escapeCSV account.currency.code,
         escapeCSV account.currency.name, escapeCSV account.currency.symbol,
         account.currency.rate.toJSString, boolToJSString account.currency.isCustom,
         toISOStringD nowIso account.createdAt, toISOStringD nowIso account.updatedAt]) ++ [""]
  let transactionLines :=
    ["[TRANSACTIONS]",
     "id,accountId,type,amount,currency_id,currency_code,currency_name,currency_symbol,currency_rate,currency_isCustom,name,description,date,createdAt,updatedAt"] ++
    data.transactions.map (fun transaction =>
      String.intercalate ","
        [escapeCSV transaction.id, escapeCSV transaction.accountId,
         escapeCSV transaction.type, transaction.amount.toJSString,
         escapeCSV transaction.currency.id, escapeCSV transaction.currency.code,
         escapeCSV transaction.currency.name, escapeCSV transaction.currency.symbol,
         transaction.currency.rate.toJSString, boolToJSString transaction.currency.isCustom,
         escapeCSV transaction.name, escapeCSV transaction.description,
         toISOStringD nowIso transaction.date, toISOStringD nowIso transaction.createdAt,
         toISOStringD nowIso transaction.updatedAt])
  String.intercalate "\n"
    (["[METADATA]",
      kvLine "version" (escapeCSV data.version),
      kvLine "exportDate" (escapeCSV data.exportDate),
      ""] ++ settingsLines ++ currencyLines ++ accountLines ++ transactionLines)

/-- Row mapper for the `[CUSTOM_CURRENCIES]` table. -/
def currencyOfRow (row : String → String) : Currency :=
  { id := row "id", code := row "code", name := row "name", symbol := row "symbol",
    rate := jsParseFloat (row "rate"), isCustom := row "isCustom" = "true" }

/-- Row mapper for the `[ACCOUNTS]` table. -/
def accountOfRow (row : String → String) : Account :=
  { id := row "id", name := row "name", description := row "description",
    totalOwed := jsParseFloat (row "totalOwed"),
    totalOwedToMe := jsParseFloat (row "totalOwedToMe"),
    currency :=
      { id := row "currency_id", code := row "currency_code",
        name := row "currency_name", symbol := row "currency_symbol",
        rate := jsParseFloat (row "currency_rate"),
        isCustom := row "currency_isCustom" = "true" },
    createdAt := row "createdAt", updatedAt := row "updatedAt" }

/-- Row mapper for the `[TRANSACTIONS]` table: the `type` is trimmed and
lowercased, and coerced to `debt` when not `debt`/`credit`. -/
def transactionOfRow (row : String → String) : Transaction :=
  let ty := jsToLower (jsTrim (row "type"))
  { id := row "id", accountId := row "accountId",
    type := if ty = "debt" ∨ ty = "credit" then ty else "debt",
    amount := jsParseFloat (row "amount"),
    currency :=
      { id := row "currency_id", code := row "currency_code",
        name := row "currency_name", symbol := row "currency_symbol",
        rate := jsParseFloat (row "currency_rate"),
        isCustom := row "currency_isCustom" = "true" },
    name := row "name", description := row "description",
    date := row "date", createdAt := row "createdAt", updatedAt := row "updatedAt" }

/-- `parseCSVContent`: split on line breaks, trim every line, drop blank
lines, assign lines to sections, then parse each section. -/
def parseCSVContent (nowIso : String) (content : String) : BackupData :=
  let lines := ((jsSplit '\n' content).map jsTrim).filter (fun l => l ≠ "")
  let sections := splitSections lines
  let metadataMap := parseKeyValueSection sections.metadata
  let version := orDefault (getAssoc metadataMap "version") "0.0.0"
  let exportDate := orDefault (getAssoc metadataMap "exportDate") nowIso
  let settingsMap := parseKeyValueSection sections.settings
  let settings : AppSettings :=
    { language := orDefault (getAssoc settingsMap "language") "en",
      theme := orDefault (getAssoc settingsMap "theme") "light",
      defaultCurrency :=
        { id := orDefault (getAssoc settingsMap "defaultCurrency_id") "usd",
          code := orDefault (getAssoc settingsMap "defaultCurrency_code") "USD",
          name := orDefault (getAssoc settingsMap "defaultCurrency_name") "US Dollar",
          symbol := orDefault (getAssoc settingsMap "defaultCurrency_symbol") "$",
          rate := jsParseFloat (orDefault (getAssoc settingsMap "defaultCurrency_rate") "1"),
          isCustom := getAssoc settingsMap "defaultCurrency_isCustom" = "true" },
      autoUpdateRates := getAssoc settingsMap "autoUpdateRates" = "true" }
  { version := version, exportDate := exportDate,
    accounts := parseTableSection accountOfRow sections.accounts,
    transactions := parseTableSection transactionOfRow sections.transactions,
    settings := settings,
    customCurrencies := parseTableSection currencyOfRow sections.customCurrencies }

/-- Result of `validateBackup`. -/
structure ValidationResult where
  isValid : Bool
  errors : List String
  warnings : List String
deriving DecidableEq

/-- Per-account blocking errors, with the `forEach` position (0-based `i`,
messages use `i + 1`).  The embedded `currency` object is always truthy, so
only its `code` is checked. -/
def accountErrorsFrom : Nat → List Account → List String
  | _, [] => []
  | i, account :: rest =>
    (if account.id = "" ∨ account.name = "" then
      ["Invalid account at position " ++ toString (i + 1)] else []) ++
    (if account.currency.code = "" then
      ["Account \"" ++ account.name ++ "\" has invalid currency"] else []) ++
    accountErrorsFrom (i + 1) rest

/-- Per-transaction blocking errors: missing id/accountId, type outside
`debt`/`credit`, and `amount <= 0 || isNaN(amount)`. -/
def transactionErrorsFrom : Nat → List Transaction → List String
  | _, [] => []
  | i, transaction :: rest =>
    (if transaction.id = "" ∨ transaction.accountId = "" then
      ["Invalid transaction at position " ++ toString (i + 1)] else []) ++
    (if transaction.type = "debt" ∨ transaction.type = "credit" then []
     else ["Transaction " ++ toString (i + 1) ++ " has invalid type: \"" ++
       transaction.type ++ "\""]) ++
    (if (transaction.amount.leb (JNum.num 0) || transaction.amount.isNaNb) = true then
      ["Transaction " ++ toString (i + 1) ++ " has invalid amount: " ++
        transaction.amount.toJSString] else []) ++
    transactionErrorsFrom (i + 1) rest

/-- `validateBackup`: accumulate every error and warning; the settings
`defaultCurrency` object of the embedded type is always present, so its check
contributes nothing. -/
def validateBackup (data : BackupData) : ValidationResult :=
  let warnings :=
    (if data.version = "" then ["Backup version information missing"] else []) ++
    (if data.accounts.length = 0 then ["No accounts found in backup"] else []) ++
    (if data.settings.language = "" then ["Settings missing language preference"] else [])
  let errors :=
    accountErrorsFrom 0 data.accounts ++ transactionErrorsFrom 0 data.transactions
  { isValid := errors.length = 0, errors := errors, warnings := warnings }

end CSV

namespace LW

/-- `Currency` as manipulated by the storage layer and the import engine;
rates are rationals (the finite JavaScript numbers in play). -/
structure Currency where
  id : String
  code : String
  name : String
  symbol : String
  rate : ℚ
  isCustom : Bool
deriving DecidableEq

/-- The `'debt' | 'credit'` union of `Transaction.type`. -/
inductive TxType where
  | debt
  | credit
deriving DecidableEq

/-- `Account`; dates are epoch milliseconds. -/
structure Account where
  id : String
  name : String
  description : String
  totalOwed : ℚ
  totalOwedToMe : ℚ
  currency : Currency
  createdAt : Int
  updatedAt : Int
deriving DecidableEq

/-- `Transaction`; dates are epoch milliseconds (`Date.getTime()`). -/
structure Transaction where
  id : String
  accountId : String
  type : TxType
  amount : ℚ
  currency : Currency
  name : String
  description : String
  date : Int
  createdAt : Int
  updatedAt : Int
deriving DecidableEq

/-- `AppSettings`. -/
structure AppSettings where
  defaultCurrency : Currency
  language : String
  theme : String
  autoUpdateRates : Bool
deriving DecidableEq

/-- The four `AsyncStorage` keys of `StorageService` as one pure state;
`settings := none` models the key being absent. -/
structure Store where
  accounts : List Account
  transactions : List Transaction
  currencies : List Currency
  settings : Option AppSettings
deriving DecidableEq

/-- `DEFAULT_CURRENCIES` of `src/utils/currency.ts`. -/
def DEFAULT_CURRENCIES : List Currency :=
  [{ id := "usd", code := "USD", name := "US Dollar", symbol := "$", rate := 1, isCustom := false },
   { id := "eur", code := "EUR", name := "Euro", symbol := "€", rate := 0.85, isCustom := false },
   { id := "gbp", code := "GBP", name := "British Pound", symbol := "£", rate := 0.73, isCustom := false },
   { id := "jpy", code := "JPY", name := "Japanese Yen", symbol := "¥", rate := 110, isCustom := false },
   { id := "cad", code := "CAD", name := "Canadian Dollar", symbol := "C$", rate := 1.25, isCustom := false },
   { id := "aud", code := "AUD", name := "Australian Dollar", symbol := "A$", rate := 1.35, isCustom := false },
   { id := "chf", code := "CHF", name := "Swiss Franc", symbol := "CHF", rate := 0.92, isCustom := false },
   { id := "cny", code := "CNY", name := "Chinese Yuan", symbol := "¥", rate := 6.45, isCustom := false },
   { id := "inr", code := "INR", name := "Indian Rupee", symbol := "₹", rate := 74.5, isCustom := false },
   { id := "krw", code := "KRW", name := "South Korean Won", symbol := "₩", rate := 1180, isCustom := false }]

/-- Replace the first element with the same key, else append: the
`findIndex`-then-assign-or-push idiom of `saveAccount`/`saveTransaction`, and
also JavaScript `Map.set` keyed through `key`. -/
def upsertBy {α : Type} (key : α → String) (x : α) : List α → List α
  | [] => [x]
  | y :: ys => if key y = key x then x :: ys else y :: upsertBy key x ys

/-- `StorageService.saveAccount`. -/
def Store.saveAccount (s : Store) (account : Account) : Store :=
  { s with accounts := upsertBy Account.id account s.accounts }

/-- The name/description migration applied by `getTransactions` to one
record. -/
def migrateTx (t : Transaction) : Transaction :=
  if t.name = "" ∧ t.description ≠ "" then
    { t with name := t.description, description := "" }
  else t

/-- `StorageService.getTransactions`: returns the migrated list and writes it
back when any record needed migrating. -/
def Store.getTransactionsRun (s : Store) : List Transaction × Store :=
  let migrated := s.transactions.map migrateTx
  let needsSaving := s.transactions.any (fun t => t.name = "" ∧ t.description ≠ "")
  (migrated, if needsSaving then { s with transactions := migrated } else s)

/-- `StorageService.deleteAccount`: remove the account, then cascade-delete
its transactions (read through `getTransactions`, hence migrated). -/
def Store.deleteAccount (s : Store) (accountId : String) : Store :=
  let s1 := { s with accounts := s.accounts.filter (fun a => a.id ≠ accountId) }
  let r := s1.getTransactionsRun
  { r.2 with transactions := r.1.filter (fun t => t.accountId ≠ accountId) }

/-- `StorageService.getTransactionsByAccount`. -/
def Store.getTransactionsByAccountRun (s : Store) (accountId : String) :
    List Transaction × Store :=
  let r := s.getTransactionsRun
  (r.1.filter (fun t => t.accountId = accountId), r.2)

/-- The `forEach` accumulation of `updateAccountBalance`: running
`(totalOwed, totalOwedToMe)` sums. -/
def totalsOf (transactions : List Transaction) : ℚ × ℚ :=
  transactions.foldl
    (fun p t =>
      if t.type = TxType.debt then (p.1 + t.amount, p.2) else (p.1, p.2 + t.amount))
    (0, 0)

/-- `StorageService.updateAccountBalance`: recompute the cached totals of the
account from its transactions (`now` models `new Date()`). -/
def Store.updateAccountBalance (s : Store) (accountId : String) (now : Int) : Store :=
  match s.accounts.find? (fun a => a.id = accountId) with
  | none => s
  | some account =>
    let r := s.getTransactionsByAccountRun accountId
    let totals := totalsOf r.1
    r.2.saveAccount
      { account with totalOwed := totals.1, totalOwedToMe := totals.2, updatedAt := now }

/-- `StorageService.saveTransaction`: upsert, then refresh the referenced
account's cached balance. -/
def Store.saveTransaction (s : Store) (transaction : Transaction) (now : Int) : Store :=
  let r := s.getTransactionsRun
  let s2 := { r.2 with transactions := upsertBy Transaction.id transaction r.1 }
  s2.updateAccountBalance transaction.accountId now

/-- `StorageService.deleteTransaction`. -/
def Store.deleteTransaction (s : Store) (transactionId : String) (now : Int) : Store :=
  let r := s.getTransactionsRun
  match r.1.find? (fun t => t.id = transactionId) with
  | none => r.2
  | some transaction =>
    let s2 := { r.2 with transactions := r.1.filter (fun t => t.id ≠ transactionId) }
    s2.updateAccountBalance transaction.accountId now

/-- `StorageService.getCurrencies`: overlay stored currencies on the defaults
(id-keyed `Map`), writing the merged list back when it grew. -/
def Store.getCurrenciesRun (s : Store) : List Currency × Store :=
  let base := DEFAULT_CURRENCIES.foldl (fun m c => upsertBy Currency.id c m) []
  let merged := s.currencies.foldl (fun m c => upsertBy Currency.id c m) base
  (merged, if s.currencies.length ≠ merged.length then { s with currencies := merged } else s)

/-- `StorageService.saveCurrencies`. -/
def Store.saveCurrencies (s : Store) (currencies : List Currency) : Store :=
  { s with currencies := currencies }

/-- `StorageService.saveSettings`. -/
def Store.saveSettings (s : Store) (settings : AppSettings) : Store :=
  { s with settings := some settings }

/-- `StorageService.clearAllData`: every key removed. -/
def Store.clearAllData (_s : Store) : Store :=
  { accounts := [], transactions := [], currencies := [], settings := none }

/-- `ExcelImportService.areTransactionsSimilar` (the same test is inlined in
`executeImport`): trimmed lowercased names equal, same type, amounts within
0.01, dates within 24 hours. -/
def areTransactionsSimilar (existing imported : Transaction) : Bool :=
  let dateDiff := |existing.date - imported.date|
  let isDateClose := decide (dateDiff < 24 * 60 * 60 * 1000)
  decide (jsTrim (jsToLower existing.name) = jsTrim (jsToLower imported.name)) &&
    decide (existing.type = imported.type) &&
    decide (|existing.amount - imported.amount| < 0.01) &&
    isDateClose

/-- The account-duplicate test of `executeImport`: case-insensitive name
equality and exact currency code equality. -/
def isDuplicateAccountOf (account existing : Account) : Bool :=
  decide (jsToLower existing.name = jsToLower account.name) &&
    decide (existing.currency.code = account.currency.code)

/-- `ImportSummary` (only reported to the user; never read by the engine's
persistence logic). -/
structure ImportSummary where
  totalAccounts : Nat
  totalTransactions : Nat
  currencies : List String
  dateRange : Option (String × String)
  duplicateAccounts : Nat
  duplicateTransactions : Nat
deriving DecidableEq

/-- `ImportData`. -/
structure ImportData where
  accounts : List Account
  transactions : List Transaction
  summary : ImportSummary
deriving DecidableEq

/-- `ImportOptions`; absent fields are `false` (undefined is falsy). -/
structure ImportOptions where
  replaceExistingData : Bool
  skipDuplicates : Bool
  validateCurrencies : Bool
deriving DecidableEq

/-- The custom-currency pre-step of `executeImport`: add the snapshot's
custom currencies that are not yet present (code-keyed `Map`). -/
def importCustomCurrencies (customCurrencies : List Currency) (s : Store) : Store :=
  if customCurrencies.length = 0 then s
  else
    let r := s.getCurrenciesRun
    let s1 := r.2
    let currenciesMap := r.1.foldl (fun m c => upsertBy Currency.code c m) []
    let currenciesMap :=
      customCurrencies.foldl
        (fun m currency =>
          if m.any (fun c => c.code = currency.code) then m else m ++ [currency])
        currenciesMap
    s1.saveCurrencies currenciesMap

/-- The post-wipe currency restore of the replace branch: defaults overlaid
with every snapshot custom currency (code-keyed `Map`, unconditional set). -/
def restoreCustomCurrencies (customCurrencies : List Currency) (s : Store) : Store :=
  if customCurrencies.length = 0 then s
  else
    let r := s.getCurrenciesRun
    let s1 := r.2
    let currenciesMap := r.1.foldl (fun m c => upsertBy Currency.code c m) []
    let currenciesMap :=
      customCurrencies.foldl (fun m currency => upsertBy Currency.code currency m) currenciesMap
    s1.saveCurrencies currenciesMap

/-- Account lookup in the `accountIdMap`. -/
def lookupId (m : List (String × String)) (k : String) : Option String :=
  (m.find? (fun p => p.1 = k)).map (fun p => p.2)

/-- `accountIdMap.set` (JavaScript `Map.set`). -/
def setId (m : List (String × String)) (k v : String) : List (String × String) :=
  upsertBy (fun p => p.1) (k, v) m

/-- Rewrite a transaction's `accountId` through the id map; the source's
`if (newAccountId)` truthiness guard leaves the transaction unchanged both
when the map has no entry and when the mapped id is the empty string. -/
def remapTx (m : List (String × String)) (t : Transaction) : Transaction :=
  match lookupId m t.accountId with
  | some newAccountId =>
    if newAccountId = "" then t else { t with accountId := newAccountId }
  | none => t

/-- The replace branch of `executeImport`: wipe, restore custom currencies,
save every account while recording the old-id-to-saved-id map, then save
every transaction with its `accountId` rewritten through the map. -/
def executeImportReplace (importData : ImportData) (now : Int) (s : Store) : Store :=
  let s1 := s.clearAllData
  let s2 := restoreCustomCurrencies
    ((importData.accounts.map Account.currency).filter Currency.isCustom) s1
  let step := importData.accounts.foldl
    (fun (p : Store × List (String × String)) account =>
      (p.1.saveAccount account, setId p.2 account.id account.id))
    (s2, [])
  importData.transactions.foldl
    (fun st transaction => st.saveTransaction (remapTx step.2 transaction) now)
    step.1

/-- One account of the merge branch: save non-duplicates under their own id;
save duplicates under a freshly minted id and a marked name unless
skip-duplicates is on, in which case map the old id to the first live
duplicate's id without saving. -/
def mergeAccountStep (existingAccounts : List Account) (skipDuplicates : Bool) (now : Int)
    (p : Store × List (String × String)) (account : Account) :
    Store × List (String × String) :=
  let oldId := account.id
  let isDuplicate := existingAccounts.any (isDuplicateAccountOf account)
  if !isDuplicate || !skipDuplicates then
    let account :=
      if isDuplicate then
        { account with
            id := account.id ++ "_imported_" ++ toString now,
            name := account.name ++ " (Imported)" }
      else account
    (p.1.saveAccount account, setId p.2 oldId account.id)
  else
    match existingAccounts.find? (isDuplicateAccountOf account) with
    | some existingAccount => (p.1, setId p.2 oldId existingAccount.id)
    | none => p

/-- One transaction of the merge branch: remap the foreign key through the id
map, then persist unless it is a duplicate and skip-duplicates is on. -/
def mergeTransactionStep (existingTransactions : List Transaction) (skipDuplicates : Bool)
    (accountIdMap : List (String × String)) (now : Int) (st : Store)
    (transaction : Transaction) : Store :=
  let transaction := remapTx accountIdMap transaction
  let isDuplicate := existingTransactions.any (fun ex => areTransactionsSimilar ex transaction)
  if !isDuplicate || !skipDuplicates then st.saveTransaction transaction now else st

/-- The merge branch of `executeImport`. -/
def executeImportMerge (importData : ImportData) (skipDuplicates : Bool) (now : Int)
    (s : Store) : Store :=
  let existingAccounts := s.accounts
  let r := s.getTransactionsRun
  let step := importData.accounts.foldl
    (mergeAccountStep existingAccounts skipDuplicates now) (r.2, [])
  importData.transactions.foldl
    (mergeTransactionStep r.1 skipDuplicates step.2 now) step.1

/-- `executeImport` of the settings screen: custom-currency pre-step, then
the replace or merge branch (`now` models `Date.now()` / `new Date()`). -/
def executeImport (importData : ImportData) (options : ImportOptions) (now : Int)
    (s : Store) : Store :=
  let s1 := importCustomCurrencies
    ((importData.accounts.map Account.currency).filter Currency.isCustom) s
  if options.replaceExistingData then executeImportReplace importData now s1
  else executeImportMerge importData options.skipDuplicates now s1

/-- The backup snapshot handled by the CSV restore flow, in storage-layer
terms. -/
structure BackupSnapshot where
  accounts : List Account
  transactions : List Transaction
  settings : AppSettings
  customCurrencies : List Currency
deriving DecidableEq

/-- Modelled from the spec: the Replace-policy reconciliation of a CSV backup
snapshot.  The screen code orchestrating `CSVBackupService` restore is not
among the sources (only the service, its documentation and the persistence
layer are), so this follows §4.5 of the specification: wipe all live state,
restore built-in plus snapshot custom currencies, persist every snapshot
account under a tracked old-id-to-persisted-id mapping, rewrite and persist
every transaction through that mapping, and finally persist the snapshot's
settings as-is. -/
def reconcileReplace (snapshot : BackupSnapshot) (now : Int) (s : Store) : Store :=
  let s1 := s.clearAllData
  let s2 := s1.saveCurrencies (DEFAULT_CURRENCIES ++ snapshot.customCurrencies)
  let step := snapshot.accounts.foldl
    (fun (p : Store × List (String × String)) account =>
      (p.1.saveAccount account, setId p.2 account.id account.id))
    (s2, [])
  let s3 := snapshot.transactions.foldl
    (fun st transaction => st.saveTransaction (remapTx step.2 transaction) now)
    step.1
  s3.saveSettings snapshot.settings

end LW

/- Concrete inputs used by the evaluation theorems and witnesses below. -/

namespace CSV

/-- A built-in US-dollar currency record (CSV view). -/
def exUSD : Currency :=
  { id := "usd", code := "USD", name := "US Dollar", symbol := "$", rate := .num 1,
    isCustom := false }

/-- Ordinary settings. -/
def exSettings : AppSettings :=
  { language := "en", theme := "light", defaultCurrency := exUSD, autoUpdateRates := true }

/-- A transaction whose counterparty name holds a comma, a double quote and a
line break (the escaping example of the specification). -/
def txNL : Transaction :=
  { id := "tx1", accountId := "acc1", type := "debt", amount := .num 50, currency := exUSD,
    name := "Bob, \"The Rock\" said\nhi", description := "d",
    date := "2024-01-15T00:00:00.000Z", createdAt := "2024-01-15T00:00:00.000Z",
    updatedAt := "2024-01-15T00:00:00.000Z" }

/-- A well-formed account. -/
def accNL : Account :=
  { id := "acc1", name := "Groceries", description := "", totalOwed := .num 50,
    totalOwedToMe := .num 0, currency := exUSD,
    createdAt := "2024-01-15T00:00:00.000Z", updatedAt := "2024-01-15T00:00:00.000Z" }

/-- Snapshot exercising the serialize-then-parse round trip on `txNL`. -/
def bdNL : BackupData :=
  { version := "0.9.0", exportDate := "2024-02-01T00:00:00.000Z", accounts := [accNL],
    transactions := [txNL], settings := exSettings, customCurrencies := [] }

/-- Account with an empty name and otherwise valid fields (defect 2 of the
validator-completeness scenario). -/
def accEmptyName : Account :=
  { id := "a1", name := "", description := "", totalOwed := .num 0, totalOwedToMe := .num 0,
    currency := exUSD, createdAt := "2024-01-01T00:00:00.000Z",
    updatedAt := "2024-01-01T00:00:00.000Z" }

/-- Transaction with amount `-5` and otherwise valid fields (defect 1). -/
def txNegAmount : Transaction :=
  { id := "t1", accountId := "a1", type := "debt", amount := .num (-5), currency := exUSD,
    name := "John", description := "", date := "2024-01-02T00:00:00.000Z",
    createdAt := "2024-01-02T00:00:00.000Z", updatedAt := "2024-01-02T00:00:00.000Z" }

/-- Transaction with type `loan` and otherwise valid fields (defect 3). -/
def txLoanType : Transaction :=
  { id := "t2", accountId := "a1", type := "loan", amount := .num 10, currency := exUSD,
    name := "Jane", description := "", date := "2024-01-03T00:00:00.000Z",
    createdAt := "2024-01-03T00:00:00.000Z", updatedAt := "2024-01-03T00:00:00.000Z" }

/-- Transaction whose amount is positive infinity and whose other fields are
valid. -/
def txInfAmount : Transaction :=
  { id := "t3", accountId := "a1", type := "debt", amount := .inf, currency := exUSD,
    name := "Joe", description := "", date := "2024-01-04T00:00:00.000Z",
    createdAt := "2024-01-04T00:00:00.000Z", updatedAt := "2024-01-04T00:00:00.000Z" }

/-- A fully valid account. -/
def accOk : Account :=
  { id := "a1", name := "Groceries", description := "", totalOwed := .num 0,
    totalOwedToMe := .num 0, currency := exUSD, createdAt := "2024-01-01T00:00:00.000Z",
    updatedAt := "2024-01-01T00:00:00.000Z" }

/-- Snapshot whose only amount defect is the positive-infinity amount. -/
def bdInf : BackupData :=
  { version := "1.0.0", exportDate := "2024-02-01T00:00:00.000Z", accounts := [accOk],
    transactions := [txInfAmount], settings := exSettings, customCurrencies := [] }

/-- A fully valid transaction (finite positive amount). -/
def txOk : Transaction :=
  { id := "t4", accountId := "a1", type := "credit", amount := .num 25, currency := exUSD,
    name := "Ann", description := "", date := "2024-01-05T00:00:00.000Z",
    createdAt := "2024-01-05T00:00:00.000Z", updatedAt := "2024-01-05T00:00:00.000Z" }

/-- A fully valid snapshot. -/
def bdOk : BackupData :=
  { version := "1.0.0", exportDate := "2024-02-01T00:00:00.000Z", accounts := [accOk],
    transactions := [txOk], settings := exSettings, customCurrencies := [] }

/-- Raw backup text whose transaction row carries the unknown type `loan`. -/
def contentLoan : String := "[TRANSACTIONS]\nid,type\n1,loan"

/-- The transaction `parseCSVContent` produces from `contentLoan`: the type
is coerced to `debt`, every other column reads as empty. -/
def txFromLoan : Transaction :=
  { id := "1", accountId := "", type := "debt", amount := .nan,
    currency := { id := "", code := "", name := "", symbol := "", rate := .nan, isCustom := false },
    name := "", description := "", date := "", createdAt := "", updatedAt := "" }

end CSV

namespace LW

/-- Built-in US-dollar currency (storage view). -/
def lwUSD : Currency :=
  { id := "usd", code := "USD", name := "US Dollar", symbol := "$", rate := 1,
    isCustom := false }

/-- An all-zero import summary (the engine never reads it). -/
def zeroSummary : ImportSummary :=
  { totalAccounts := 0, totalTransactions := 0, currencies := [], dateRange := none,
    duplicateAccounts := 0, duplicateTransactions := 0 }

/-- Snapshot account for the replace-integrity scenario. -/
def repAcct : Account :=
  { id := "acc1", name := "Groceries", description := "", totalOwed := 0, totalOwedToMe := 0,
    currency := lwUSD, createdAt := 0, updatedAt := 0 }

/-- Snapshot transaction referencing `repAcct`. -/
def repTx : Transaction :=
  { id := "t1", accountId := "acc1", type := .debt, amount := 50, currency := lwUSD,
    name := "John", description := "", date := 1705276800000, createdAt := 0, updatedAt := 0 }

/-- Replace-policy snapshot with one account and one transaction. -/
def repData : ImportData :=
  { accounts := [repAcct], transactions := [repTx], summary := zeroSummary }

/-- Replace-policy options. -/
def repOpts : ImportOptions :=
  { replaceExistingData := true, skipDuplicates := false, validateCurrencies := false }

/-- An empty live store. -/
def emptyStore : Store :=
  { accounts := [], transactions := [], currencies := [], settings := none }

/-- Live account duplicated (case-insensitively) by the merge snapshot. -/
def liveE : Account :=
  { id := "e1", name := "bob", description := "", totalOwed := 50, totalOwedToMe := 0,
    currency := lwUSD, createdAt := 0, updatedAt := 0 }

/-- Live transaction that the merge snapshot's transaction duplicates. -/
def liveX : Transaction :=
  { id := "x1", accountId := "e1", type := .debt, amount := 50, currency := lwUSD,
    name := "john", description := "", date := 0, createdAt := 0, updatedAt := 0 }

/-- Live store for the merge scenarios. -/
def mergeStore : Store :=
  { accounts := [liveE], transactions := [liveX], currencies := [], settings := none }

/-- Imported account duplicating `liveE` (name case differs, currency code
matches). -/
def impA : Account :=
  { id := "a9", name := "Bob", description := "", totalOwed := 0, totalOwedToMe := 0,
    currency := lwUSD, createdAt := 0, updatedAt := 0 }

/-- Imported transaction referencing `impA` that also duplicates `liveX`
(same name up to case, same type, same amount, 3 hours apart). -/
def impTDup : Transaction :=
  { id := "t9", accountId := "a9", type := .debt, amount := 50, currency := lwUSD,
    name := "John", description := "", date := 10800000, createdAt := 0, updatedAt := 0 }

/-- Imported transaction referencing `impA` that duplicates nothing (amount
differs by 20). -/
def impTNew : Transaction :=
  { id := "t9", accountId := "a9", type := .debt, amount := 70, currency := lwUSD,
    name := "John", description := "", date := 0, createdAt := 0, updatedAt := 0 }

/-- Merge snapshot whose transaction is itself a live duplicate. -/
def mergeDataDup : ImportData :=
  { accounts := [impA], transactions := [impTDup], summary := zeroSummary }

/-- Merge snapshot whose transaction is not a live duplicate. -/
def mergeDataNew : ImportData :=
  { accounts := [impA], transactions := [impTNew], summary := zeroSummary }

/-- Imported transaction referencing `impA`, distinct id, duplicating
nothing (amount differs by 20). -/
def impTFresh : Transaction :=
  { id := "t8", accountId := "a9", type := .debt, amount := 70, currency := lwUSD,
    name := "John", description := "", date := 0, createdAt := 0, updatedAt := 0 }

/-- Mixed merge snapshot: one transaction is a live duplicate (skipped under
skip-duplicates), the other is fresh. -/
def mergeDataMixed : ImportData :=
  { accounts := [impA], transactions := [impTDup, impTFresh], summary := zeroSummary }

/-- Merge options with skip-duplicates enabled. -/
def skipOpts : ImportOptions :=
  { replaceExistingData := false, skipDuplicates := true, validateCurrencies := false }

/-- Transactions for the duplicate-heuristic examples: amount 100 at time 0. -/
def simT1 : Transaction :=
  { id := "s1", accountId := "e1", type := .debt, amount := 100, currency := lwUSD,
    name := "Sam", description := "", date := 0, createdAt := 0, updatedAt := 0 }

/-- Amount 100.004, three hours later, otherwise like `simT1`. -/
def simT2 : Transaction :=
  { id := "s2", accountId := "e1", type := .debt, amount := 100.004, currency := lwUSD,
    name := "Sam", description := "", date := 10800000, createdAt := 0, updatedAt := 0 }

/-- Thirty hours later, otherwise identical to `simT1`. -/
def simT3 : Transaction :=
  { id := "s3", accountId := "e1", type := .debt, amount := 100, currency := lwUSD,
    name := "Sam", description := "", date := 108000000, createdAt := 0, updatedAt := 0 }

/-- Account whose cached totals start stale. -/
def balAcct : Account :=
  { id := "acc1", name := "Groceries", description := "", totalOwed := 7, totalOwedToMe := 9,
    currency := lwUSD, createdAt := 0, updatedAt := 0 }

/-- A pre-existing credit transaction of `balAcct`. -/
def balTx0 : Transaction :=
  { id := "t0", accountId := "acc1", type := .credit, amount := 20, currency := lwUSD,
    name := "Ann", description := "", date := 0, createdAt := 0, updatedAt := 0 }

/-- Store holding `balAcct` and one of its credit transactions. -/
def balStore : Store :=
  { accounts := [balAcct], transactions := [balTx0], currencies := [], settings := none }

/-- A debt transaction on `balAcct` to be saved. -/
def balTx : Transaction :=
  { id := "t5", accountId := "acc1", type := .debt, amount := 50, currency := lwUSD,
    name := "Bob", description := "", date := 0, createdAt := 0, updatedAt := 0 }

/-- `∃ a ∈ s.accounts, a.id = k`: some persisted account carries id `k`. -/
def Store.hasAcct (s : Store) (k : String) : Prop :=
  ∃ a ∈ s.accounts, a.id = k

/-- Amounts of the persisted debt transactions of account `aid`. -/
def debtAmounts (l : List Transaction) (aid : String) : List ℚ :=
  ((l.filter (fun t => t.accountId = aid)).filter (fun t => t.type = TxType.debt)).map
    Transaction.amount

/-- Amounts of the persisted credit transactions of account `aid` (the
engine's `else` branch: any non-debt type). -/
def creditAmounts (l : List Transaction) (aid : String) : List ℚ :=
  ((l.filter (fun t => t.accountId = aid)).filter (fun t => ¬t.type = TxType.debt)).map
    Transaction.amount

/-- `balAcct` as re-saved by the rebalance following `saveTransaction balTx`:
totals recomputed to (50, 20), `updatedAt` stamped. -/
def balAcctAfter : Account :=
  { id := "acc1", name := "Groceries", description := "", totalOwed := 50,
    totalOwedToMe := 20, currency := lwUSD, createdAt := 0, updatedAt := 5 }

/-- `balAcct` as re-saved by the rebalance following deletion of its only
transaction: totals recomputed to (0, 0). -/
def balAcctAfterDel : Account :=
  { id := "acc1", name := "Groceries", description := "", totalOwed := 0,
    totalOwedToMe := 0, currency := lwUSD, createdAt := 0, updatedAt := 9 }

/-- First account of the cascade-delete scenario. -/
def delA1 : Account :=
  { id := "a1", name := "Alpha", description := "", totalOwed := 0, totalOwedToMe := 0,
    currency := lwUSD, createdAt := 0, updatedAt := 0 }

/-- Second account of the cascade-delete scenario. -/
def delA2 : Account :=
  { id := "a2", name := "Beta", description := "", totalOwed := 0, totalOwedToMe := 0,
    currency := lwUSD, createdAt := 0, updatedAt := 0 }

/-- Transaction under `delA1`. -/
def delT1 : Transaction :=
  { id := "t1", accountId := "a1", type := .debt, amount := 5, currency := lwUSD,
    name := "N1", description := "", date := 0, createdAt := 0, updatedAt := 0 }

/-- Transaction under `delA2`. -/
def delT2 : Transaction :=
  { id := "t2", accountId := "a2", type := .credit, amount := 6, currency := lwUSD,
    name := "N2", description := "", date := 0, createdAt := 0, updatedAt := 0 }

/-- Store for the cascade-delete scenario: two accounts, one transaction
each. -/
def delStore : Store :=
  { accounts := [delA1, delA2], transactions := [delT1, delT2], currencies := [],
    settings := none }

end LW

/- ------------------------------------------------------------------ -/
/- Theorems.                                                          -/
/- ------------------------------------------------------------------ -/

namespace LW

/-- C5: two transactions are flagged as duplicates exactly when trimmed,
lowercased counterparty names match, types match, amounts differ by less than
0.01 and dates differ by less than 24 hours; amounts 100 and 100.004 three
hours apart are duplicates, while 30 hours apart (otherwise identical) is
not. -/
theorem duplicate_heuristic_spec :
    (∀ a b : Transaction,
      areTransactionsSimilar a b = true ↔
        (jsTrim (jsToLower a.name) = jsTrim (jsToLower b.name) ∧ a.type = b.type ∧
          |a.amount - b.amount| < 1 / 100 ∧ |a.date - b.date| < 24 * 60 * 60 * 1000)) ∧
    areTransactionsSimilar simT1 simT2 = true ∧
    areTransactionsSimilar simT1 simT3 = false := by
  refine ⟨fun a b => ?_, by decide, by decide⟩
  unfold areTransactionsSimilar
  simp only [Bool.and_eq_true, decide_eq_true_eq]
  constructor
  · rintro ⟨⟨⟨h1, h2⟩, h3⟩, h4⟩
    refine ⟨h1, h2, ?_, h4⟩
    calc |a.amount - b.amount| < 0.01 := h3
    _ = 1 / 100 := by norm_num
  · rintro ⟨h1, h2, h3, h4⟩
    refine ⟨⟨⟨h1, h2⟩, ?_⟩, h4⟩
    calc |a.amount - b.amount| < 1 / 100 := h3
    _ = 0.01 := by norm_num

/-- C7: a Replace-policy reconciliation of a CSV backup snapshot finishes by
persisting the snapshot's settings as-is, fully overwriting the live
settings. -/
theorem replace_persists_settings (snapshot : BackupSnapshot) (now : Int) (s : Store) :
    (reconcileReplace snapshot now s).settings = some snapshot.settings := rfl

/-- C3 counterexample: with skip-duplicates on, a snapshot transaction that
references the skipped duplicate account but itself duplicates a live
transaction is NOT persisted at all, contradicting the claim that every
imported transaction referencing the skipped account is persisted with the
live account's id. -/
theorem merge_skip_duplicates_claim_false :
    mergeDataDup.transactions.map Transaction.id = ["t9"] ∧
    (∀ t ∈ mergeDataDup.transactions, t.accountId = impA.id) ∧
    mergeStore.accounts.any (isDuplicateAccountOf impA) = true ∧
    skipOpts.skipDuplicates = true ∧
    (executeImport mergeDataDup skipOpts 7 mergeStore).accounts.map Account.id = ["e1"] ∧
    (executeImport mergeDataDup skipOpts 7 mergeStore).transactions.any
      (fun t => t.id = "t9") = false := by
  decide

/-- Elements of an upsert come from the new element or the old list. -/
theorem mem_upsertBy {α : Type} (key : α → String) (x z : α) (l : List α)
    (hz : z ∈ upsertBy key x l) : z = x ∨ z ∈ l := by
  induction l with
  | nil => simpa [upsertBy] using hz
  | cons y ys ih =>
    by_cases h : key y = key x
    · rw [upsertBy, if_pos h] at hz
      rcases List.mem_cons.mp hz with hz | hz
      · exact Or.inl hz
      · exact Or.inr (List.mem_cons_of_mem y hz)
    · rw [upsertBy, if_neg h] at hz
      rcases List.mem_cons.mp hz with hz | hz
      · exact Or.inr (hz ▸ List.mem_cons_self y ys)
      · rcases ih hz with h1 | h1
        · exact Or.inl h1
        · exact Or.inr (List.mem_cons_of_mem y h1)

/-- The upserted element is always present. -/
theorem self_mem_upsertBy {α : Type} (key : α → String) (x : α) (l : List α) :
    x ∈ upsertBy key x l := by
  induction l with
  | nil => simp [upsertBy]
  | cons y ys ih =>
    by_cases h : key y = key x
    · simp [upsertBy, h]
    · simp only [upsertBy, if_neg h, List.mem_cons]
      exact Or.inr ih

/-- Elements with a different key survive an upsert. -/
theorem mem_upsertBy_of_ne {α : Type} (key : α → String) (x y : α) (l : List α)
    (hy : y ∈ l) (hne : key y ≠ key x) : y ∈ upsertBy key x l := by
  induction l with
  | nil => cases hy
  | cons z zs ih =>
    by_cases h : key z = key x
    · rw [upsertBy, if_pos h]
      rcases List.mem_cons.mp hy with hy | hy
      · exact absurd (hy ▸ h) hne
      · exact List.mem_cons_of_mem x hy
    · rw [upsertBy, if_neg h]
      rcases List.mem_cons.mp hy with hy | hy
      · exact hy ▸ List.mem_cons_self z _
      · exact List.mem_cons_of_mem z (ih hy)

/-- Upserting an element whose key is already present keeps the key list. -/
theorem map_key_upsertBy {α : Type} (key : α → String) (x : α) (l : List α)
    (h : ∃ y ∈ l, key y = key x) : (upsertBy key x l).map key = l.map key := by
  induction l with
  | nil => simp at h
  | cons y ys ih =>
    by_cases hk : key y = key x
    · rw [upsertBy, if_pos hk]
      simp [hk]
    · rw [upsertBy, if_neg hk]
      obtain ⟨z, hz, hzk⟩ := h
      rcases List.mem_cons.mp hz with hz | hz
      · exact absurd (hz ▸ hzk) hk
      · simp [ih ⟨z, hz, hzk⟩]

/-- Searching an upsert for the upserted key finds the new element. -/
theorem find?_upsertBy_self {α : Type} (key : α → String) (x : α) (l : List α) :
    (upsertBy key x l).find? (fun y => key y = key x) = some x := by
  induction l with
  | nil => simp [upsertBy, List.find?]
  | cons y ys ih =>
    by_cases h : key y = key x
    · rw [upsertBy, if_pos h]
      simp [List.find?]
    · rw [upsertBy, if_neg h]
      rw [List.find?]
      simp only [h, decide_False]
      exact ih

/-- Whatever the search under the upserted element's key returns is the
upserted element. -/
theorem find?_eq_some_upsertBy {α : Type} (key : α → String) (x : α) (l : List α)
    (k : String) (a : α)
    (h : (upsertBy key x l).find? (fun y => key y = k) = some a) (hk : key x = k) :
    a = x := by
  subst hk
  rw [find?_upsertBy_self] at h
  exact (Option.some.inj h).symm

/-- Key membership after an upsert: the new key, or any old key. -/
theorem hasKey_upsertBy {α : Type} (key : α → String) (x : α) (l : List α) (k : String) :
    (∃ z ∈ upsertBy key x l, key z = k) ↔ (k = key x ∨ ∃ z ∈ l, key z = k) := by
  induction l with
  | nil => simp [upsertBy, eq_comm]
  | cons y ys ih =>
    by_cases h : key y = key x
    · rw [upsertBy, if_pos h]
      simp only [List.mem_cons, exists_eq_or_imp, h]
      constructor
      · rintro (h1 | h1)
        · exact Or.inl h1.symm
        · exact Or.inr (Or.inr h1)
      · rintro (h1 | h1 | h1)
        · exact Or.inl h1.symm
        · exact Or.inl h1
        · exact Or.inr h1
    · rw [upsertBy, if_neg h]
      simp only [List.mem_cons, exists_eq_or_imp] at ih ⊢
      rw [ih]
      tauto

/-- The migration does not change ids. -/
theorem migrateTx_id (t : Transaction) : (migrateTx t).id = t.id := by
  unfold migrateTx
  split <;> rfl

/-- The migration does not change foreign keys. -/
theorem migrateTx_accountId (t : Transaction) : (migrateTx t).accountId = t.accountId := by
  unfold migrateTx
  split <;> rfl

/-- A list with no legacy rows is unchanged by the migration. -/
theorem map_migrateTx_eq_self (l : List Transaction)
    (h : ∀ t ∈ l, ¬(t.name = "" ∧ t.description ≠ "")) : l.map migrateTx = l := by
  induction l with
  | nil => rfl
  | cons t rest ih =>
    have ht : migrateTx t = t := by
      unfold migrateTx
      rw [if_neg (h t (List.mem_cons_self t rest))]
    simp [ht, ih (fun x hx => h x (List.mem_cons_of_mem t hx))]

/-- The list returned by `getTransactions` is the migrated list. -/
theorem getTransactionsRun_fst (s : Store) :
    (s.getTransactionsRun).1 = s.transactions.map migrateTx := rfl

/-- After `getTransactions`, the store holds the migrated list (when nothing
needed migrating the migrated list is the stored one). -/
theorem getTransactionsRun_snd (s : Store) :
    (s.getTransactionsRun).2 = { s with transactions := s.transactions.map migrateTx } := by
  unfold Store.getTransactionsRun
  dsimp only
  by_cases h : s.transactions.any (fun t => t.name = "" ∧ t.description ≠ "") = true
  · rw [if_pos h]
  · rw [if_neg h]
    have : s.transactions.map migrateTx = s.transactions := by
      refine map_migrateTx_eq_self s.transactions (fun t ht hc => h ?_)
      exact List.any_eq_true.mpr ⟨t, ht, decide_eq_true hc⟩
    rw [this]

/-- `updateAccountBalance` on an unknown account id is the identity. -/
theorem updateAccountBalance_none (s : Store) (aid : String) (now : Int)
    (h : s.accounts.find? (fun a => a.id = aid) = none) :
    s.updateAccountBalance aid now = s := by
  unfold Store.updateAccountBalance
  rw [h]

/-- `updateAccountBalance` on a known account: transactions are migrated and
the found account is re-saved with totals recomputed from its migrated
transactions. -/
theorem updateAccountBalance_some (s : Store) (aid : String) (now : Int) (acc : Account)
    (h : s.accounts.find? (fun a => a.id = aid) = some acc) :
    s.updateAccountBalance aid now =
      { s with
          transactions := s.transactions.map migrateTx,
          accounts := upsertBy Account.id
            { acc with
                totalOwed := (totalsOf ((s.transactions.map migrateTx).filter
                  (fun t => t.accountId = aid))).1,
                totalOwedToMe := (totalsOf ((s.transactions.map migrateTx).filter
                  (fun t => t.accountId = aid))).2,
                updatedAt := now }
            s.accounts } := by
  unfold Store.updateAccountBalance
  rw [h]
  simp only [Store.getTransactionsByAccountRun, getTransactionsRun_fst,
    getTransactionsRun_snd, Store.saveAccount]

/-- `saveTransaction` characterized: upsert into the migrated list, then
rebalance the referenced account. -/
theorem saveTransaction_eq (s : Store) (t : Transaction) (now : Int) :
    s.saveTransaction t now =
      Store.updateAccountBalance
        { s with transactions := upsertBy Transaction.id t (s.transactions.map migrateTx) }
        t.accountId now := by
  unfold Store.saveTransaction
  simp only [getTransactionsRun_fst, getTransactionsRun_snd]

/-- `deleteTransaction` characterized when the transaction exists. -/
theorem deleteTransaction_eq_some (s : Store) (tid : String) (now : Int) (tx : Transaction)
    (h : (s.transactions.map migrateTx).find? (fun t => t.id = tid) = some tx) :
    s.deleteTransaction tid now =
      Store.updateAccountBalance
        { s with transactions := (s.transactions.map migrateTx).filter (fun t => t.id ≠ tid) }
        tx.accountId now := by
  unfold Store.deleteTransaction
  simp only [getTransactionsRun_fst, getTransactionsRun_snd]
  rw [h]

/-- The running totals are the type-filtered amount sums. -/
theorem totalsOf_go (l : List Transaction) (p : ℚ × ℚ) :
    l.foldl
      (fun p t =>
        if t.type = TxType.debt then (p.1 + t.amount, p.2) else (p.1, p.2 + t.amount)) p =
      (p.1 + ((l.filter (fun t => t.type = TxType.debt)).map Transaction.amount).sum,
       p.2 + ((l.filter (fun t => ¬t.type = TxType.debt)).map Transaction.amount).sum) := by
  induction l generalizing p with
  | nil => simp
  | cons t rest ih =>
    by_cases h : t.type = TxType.debt
    · simp only [List.foldl_cons, if_pos h, ih, List.filter_cons]
      simp [h, add_assoc]
    · simp only [List.foldl_cons, if_neg h, ih, List.filter_cons]
      simp [h, add_assoc]

/-- `totalsOf` computes the debt and credit amount sums. -/
theorem totalsOf_spec (l : List Transaction) :
    totalsOf l =
      (((l.filter (fun t => t.type = TxType.debt)).map Transaction.amount).sum,
       ((l.filter (fun t => ¬t.type = TxType.debt)).map Transaction.amount).sum) := by
  unfold totalsOf
  rw [totalsOf_go]
  simp

/-- After a rebalance of account `aid`, the account found under `aid` carries
exactly the recomputed sums of its persisted transactions. -/
theorem updateAccountBalance_totals (s : Store) (aid : String) (now : Int) (a : Account)
    (h : (s.updateAccountBalance aid now).accounts.find? (fun x => x.id = aid) = some a) :
    a.totalOwed = (debtAmounts (s.updateAccountBalance aid now).transactions aid).sum ∧
    a.totalOwedToMe = (creditAmounts (s.updateAccountBalance aid now).transactions aid).sum := by
  cases hfind : s.accounts.find? (fun x => x.id = aid) with
  | none =>
    rw [updateAccountBalance_none s aid now hfind] at h
    rw [h] at hfind
    cases hfind
  | some acc =>
    have hacc_id : acc.id = aid := by
      have := List.find?_some hfind
      simpa using this
    rw [updateAccountBalance_some s aid now acc hfind] at h ⊢
    dsimp only at h ⊢
    have ha := find?_eq_some_upsertBy Account.id _ s.accounts aid a h hacc_id
    subst ha
    simp [debtAmounts, creditAmounts, totalsOf_spec]

/-- Saving an account makes its id present and keeps all present ids. -/
theorem hasAcct_saveAccount (s : Store) (b : Account) (k : String) :
    (s.saveAccount b).hasAcct k ↔ (k = b.id ∨ s.hasAcct k) :=
  hasKey_upsertBy Account.id b s.accounts k

/-- Rebalancing changes no account ids. -/
theorem hasAcct_updateAccountBalance (s : Store) (aid : String) (now : Int) (k : String) :
    (s.updateAccountBalance aid now).hasAcct k ↔ s.hasAcct k := by
  cases hfind : s.accounts.find? (fun a => a.id = aid) with
  | none => rw [updateAccountBalance_none s aid now hfind]
  | some acc =>
    rw [updateAccountBalance_some s aid now acc hfind]
    have hacc_mem : acc ∈ s.accounts := List.mem_of_find?_eq_some hfind
    have hacc_id : acc.id = aid := by simpa using List.find?_some hfind
    unfold Store.hasAcct
    dsimp only
    rw [hasKey_upsertBy]
    constructor
    · rintro (h | h)
      · exact ⟨acc, hacc_mem, h.symm⟩
      · exact h
    · exact Or.inr

/-- Saving a transaction changes no account ids. -/
theorem hasAcct_saveTransaction (s : Store) (t : Transaction) (now : Int) (k : String) :
    (s.saveTransaction t now).hasAcct k ↔ s.hasAcct k := by
  rw [saveTransaction_eq]
  exact hasAcct_updateAccountBalance _ _ _ _

/-- Rebalancing only migrates transactions: every surviving foreign key was
already present. -/
theorem mem_txs_updateAccountBalance (s : Store) (aid : String) (now : Int)
    (x : Transaction) (hx : x ∈ (s.updateAccountBalance aid now).transactions) :
    ∃ y ∈ s.transactions, x.accountId = y.accountId := by
  cases hfind : s.accounts.find? (fun a => a.id = aid) with
  | none =>
    rw [updateAccountBalance_none s aid now hfind] at hx
    exact ⟨x, hx, rfl⟩
  | some acc =>
    rw [updateAccountBalance_some s aid now acc hfind] at hx
    dsimp only at hx
    obtain ⟨y, hy, rfl⟩ := List.mem_map.mp hx
    exact ⟨y, hy, migrateTx_accountId y⟩

/-- Every foreign key present after `saveTransaction` is the saved
transaction's or one already stored. -/
theorem mem_txs_saveTransaction (s : Store) (t : Transaction) (now : Int) (x : Transaction)
    (hx : x ∈ (s.saveTransaction t now).transactions) :
    x.accountId = t.accountId ∨ ∃ y ∈ s.transactions, x.accountId = y.accountId := by
  rw [saveTransaction_eq] at hx
  obtain ⟨y, hy, hxy⟩ := mem_txs_updateAccountBalance _ _ _ _ hx
  dsimp only at hy
  rcases mem_upsertBy Transaction.id t y _ hy with rfl | hy'
  · exact Or.inl hxy
  · obtain ⟨z, hz, rfl⟩ := List.mem_map.mp hy'
    exact Or.inr ⟨z, hz, hxy.trans (migrateTx_accountId z)⟩

/-- The transaction just saved is present (with its id and foreign key). -/
theorem saved_tx_present (s : Store) (t : Transaction) (now : Int) :
    ∃ y ∈ (s.saveTransaction t now).transactions,
      y.id = t.id ∧ y.accountId = t.accountId := by
  rw [saveTransaction_eq]
  have hself : t ∈ upsertBy Transaction.id t (s.transactions.map migrateTx) :=
    self_mem_upsertBy Transaction.id t _
  cases hfind : ({ s with
      transactions := upsertBy Transaction.id t (s.transactions.map migrateTx) } :
        Store).accounts.find? (fun a => a.id = t.accountId) with
  | none =>
    rw [updateAccountBalance_none _ _ _ hfind]
    exact ⟨t, hself, rfl, rfl⟩
  | some acc =>
    rw [updateAccountBalance_some _ _ _ acc hfind]
    dsimp only
    exact ⟨migrateTx t, List.mem_map_of_mem migrateTx hself, migrateTx_id t,
      migrateTx_accountId t⟩

/-- A stored transaction with a different id survives `saveTransaction` with
its id and foreign key intact. -/
theorem tx_survives_saveTransaction (s : Store) (t : Transaction) (now : Int)
    (y : Transaction) (hy : y ∈ s.transactions) (hne : y.id ≠ t.id) :
    ∃ y' ∈ (s.saveTransaction t now).transactions,
      y'.id = y.id ∧ y'.accountId = y.accountId := by
  rw [saveTransaction_eq]
  have h1 : migrateTx y ∈ upsertBy Transaction.id t (s.transactions.map migrateTx) :=
    mem_upsertBy_of_ne Transaction.id t (migrateTx y) _
      (List.mem_map_of_mem migrateTx hy) (by rw [migrateTx_id]; exact hne)
  cases hfind : ({ s with
      transactions := upsertBy Transaction.id t (s.transactions.map migrateTx) } :
        Store).accounts.find? (fun a => a.id = t.accountId) with
  | none =>
    rw [updateAccountBalance_none _ _ _ hfind]
    exact ⟨migrateTx y, h1, migrateTx_id y, migrateTx_accountId y⟩
  | some acc =>
    rw [updateAccountBalance_some _ _ _ acc hfind]
    dsimp only
    refine ⟨migrateTx (migrateTx y), List.mem_map_of_mem migrateTx h1, ?_, ?_⟩
    · rw [migrateTx_id, migrateTx_id]
    · rw [migrateTx_accountId, migrateTx_accountId]

/-- A stored (id, foreign key) pair survives `saveTransaction` whenever the
incoming transaction could only overwrite it with the same foreign key. -/
theorem exists_tx_preserved (s : Store) (t : Transaction) (now : Int) (i e : String)
    (hex : ∃ y ∈ s.transactions, y.id = i ∧ y.accountId = e)
    (ht : t.accountId = e) :
    ∃ y ∈ (s.saveTransaction t now).transactions, y.id = i ∧ y.accountId = e := by
  by_cases hid : t.id = i
  · obtain ⟨y0, hy0, hyi, hya⟩ := saved_tx_present s t now
    exact ⟨y0, hy0, hyi.trans hid, hya.trans ht⟩
  · obtain ⟨y, hy, hyi, hye⟩ := hex
    obtain ⟨y', hy', h1, h2⟩ := tx_survives_saveTransaction s t now y hy
      (fun hc => hid (hc.symm.trans hyi))
    exact ⟨y', hy', h1.trans hyi, h2.trans hye⟩

/-- Lookup skips a head with a different key. -/
theorem lookupId_cons_ne (p : String × String) (rest : List (String × String))
    (k : String) (h : ¬p.1 = k) : lookupId (p :: rest) k = lookupId rest k := by
  unfold lookupId
  rw [List.find?_cons_of_neg]
  simpa using h

/-- Lookup hits a head with the right key. -/
theorem lookupId_cons_eq (p : String × String) (rest : List (String × String))
    (k : String) (h : p.1 = k) : lookupId (p :: rest) k = some p.2 := by
  unfold lookupId
  rw [List.find?_cons_of_pos]
  · rfl
  · simpa using h

/-- `Map.get` after `Map.set` of the same key. -/
theorem lookupId_setId_self (m : List (String × String)) (k v : String) :
    lookupId (setId m k v) k = some v := by
  induction m with
  | nil => simp [setId, upsertBy, lookupId, List.find?]
  | cons p rest ih =>
    by_cases h : p.1 = k
    · have hs : setId (p :: rest) k v = (k, v) :: rest := by
        simp [setId, upsertBy, h]
      rw [hs, lookupId_cons_eq _ _ _ rfl]
    · have hs : setId (p :: rest) k v = p :: setId rest k v := by
        simp [setId, upsertBy, h]
      rw [hs, lookupId_cons_ne _ _ _ h]
      exact ih

/-- `Map.set` of an identity binding preserves the all-identity invariant. -/
theorem setId_identity (m : List (String × String)) (hm : ∀ p ∈ m, p.2 = p.1)
    (k : String) : ∀ p ∈ setId m k k, p.2 = p.1 := by
  intro p hp
  unfold setId at hp
  rcases mem_upsertBy (fun q => q.1) (k, k) p m hp with rfl | hp'
  · rfl
  · exact hm p hp'

/-- In an all-identity map, any successful lookup returns the key. -/
theorem lookupId_identity (m : List (String × String)) (hm : ∀ p ∈ m, p.2 = p.1)
    (k v : String) (h : lookupId m k = some v) : v = k := by
  unfold lookupId at h
  cases hfind : m.find? (fun p => p.1 = k) with
  | none => rw [hfind] at h; cases h
  | some p =>
    rw [hfind] at h
    have hk : p.1 = k := by simpa using List.find?_some hfind
    have hv : p.2 = v := Option.some.inj h
    rw [← hv, hm p (List.mem_of_find?_eq_some hfind), hk]

/-- `Map.set` keeps every present key present. -/
theorem lookupId_isSome_setId (m : List (String × String)) (k v k' : String)
    (h : (lookupId m k').isSome) : (lookupId (setId m k v) k').isSome := by
  by_cases hk : k' = k
  · subst hk
    rw [lookupId_setId_self]
    rfl
  · induction m with
    | nil => simp [lookupId, List.find?] at h
    | cons p rest ih =>
      by_cases hp : p.1 = k'
      · have hnpk : ¬p.1 = k := fun hc => hk (hp.symm.trans hc)
        have hs : setId (p :: rest) k v = p :: setId rest k v := by
          simp [setId, upsertBy, hnpk]
        rw [hs, lookupId_cons_eq _ _ _ hp]
        rfl
      · rw [lookupId_cons_ne _ _ _ hp] at h
        by_cases hpk : p.1 = k
        · have hs : setId (p :: rest) k v = (k, v) :: rest := by
            simp [setId, upsertBy, hpk]
          rw [hs, lookupId_cons_ne _ _ _ (fun hc => hk hc.symm)]
          exact h
        · have hs : setId (p :: rest) k v = p :: setId rest k v := by
            simp [setId, upsertBy, hpk]
          rw [hs, lookupId_cons_ne _ _ _ hp]
          exact ih h

/-- Invariants of the replace-branch account loop: the id map stays an
identity map, every processed account id becomes present in both the map and
the store, already-present account ids stay present, and the loop writes no
transactions. -/
theorem replaceAccFold (l : List Account) (st : Store) (m : List (String × String))
    (hm : ∀ p ∈ m, p.2 = p.1) :
    (∀ p ∈ (l.foldl (fun p a => (p.1.saveAccount a, setId p.2 a.id a.id)) (st, m)).2,
      p.2 = p.1) ∧
    (∀ k, (lookupId m k).isSome →
      (lookupId (l.foldl (fun p a => (p.1.saveAccount a, setId p.2 a.id a.id)) (st, m)).2
        k).isSome) ∧
    (∀ a ∈ l,
      (lookupId (l.foldl (fun p a => (p.1.saveAccount a, setId p.2 a.id a.id)) (st, m)).2
        a.id).isSome) ∧
    (∀ k, st.hasAcct k →
      ((l.foldl (fun p a => (p.1.saveAccount a, setId p.2 a.id a.id)) (st, m)).1).hasAcct k) ∧
    (∀ a ∈ l,
      ((l.foldl (fun p a => (p.1.saveAccount a, setId p.2 a.id a.id)) (st, m)).1).hasAcct
        a.id) ∧
    ((l.foldl (fun p a => (p.1.saveAccount a, setId p.2 a.id a.id)) (st, m)).1).transactions =
      st.transactions := by
  induction l generalizing st m with
  | nil => exact ⟨hm, fun _ h => h, by simp, fun _ h => h, by simp, rfl⟩
  | cons a rest ih =>
    obtain ⟨ih1, ih2, ih3, ih4, ih5, ih6⟩ :=
      ih (st.saveAccount a) (setId m a.id a.id) (setId_identity m hm a.id)
    refine ⟨ih1, ?_, ?_, ?_, ?_, ih6⟩
    · intro k hk
      exact ih2 k (lookupId_isSome_setId m a.id a.id k hk)
    · intro x hx
      rcases List.mem_cons.mp hx with rfl | hx'
      · refine ih2 x.id ?_
        rw [lookupId_setId_self]
        rfl
      · exact ih3 x hx'
    · intro k hk
      exact ih4 k ((hasAcct_saveAccount st a k).mpr (Or.inr hk))
    · intro x hx
      rcases List.mem_cons.mp hx with rfl | hx'
      · exact ih4 x.id ((hasAcct_saveAccount st x x.id).mpr (Or.inl rfl))
      · exact ih5 x hx'

/-- Rewriting through an all-identity id map is the identity. -/
theorem remapTx_identity (m : List (String × String)) (t : Transaction)
    (hm : ∀ p ∈ m, p.2 = p.1) : remapTx m t = t := by
  unfold remapTx
  cases hl : lookupId m t.accountId with
  | none => rfl
  | some v =>
    rw [lookupId_identity m hm t.accountId v hl]
    dsimp only
    split <;> rfl

/-- The transaction loop keeps every present account id present. -/
theorem txFold_hasAcct (now : Int) (f : Transaction → Transaction) (l : List Transaction)
    (st : Store) (k : String) (h : st.hasAcct k) :
    (l.foldl (fun acc t => acc.saveTransaction (f t) now) st).hasAcct k := by
  induction l generalizing st with
  | nil => exact h
  | cons t rest ih =>
    simp only [List.foldl_cons]
    refine ih (st.saveTransaction (f t) now) ?_
    rw [hasAcct_saveTransaction]
    exact h

/-- Saving a batch of transactions whose foreign keys all resolve keeps every
persisted foreign key resolving. -/
theorem txFoldInvariant (now : Int) (f : Transaction → Transaction) (l : List Transaction)
    (st : Store)
    (hFK : ∀ t ∈ l, st.hasAcct (f t).accountId)
    (hInv : ∀ x ∈ st.transactions, st.hasAcct x.accountId) :
    ∀ x ∈ (l.foldl (fun acc t => acc.saveTransaction (f t) now) st).transactions,
      (l.foldl (fun acc t => acc.saveTransaction (f t) now) st).hasAcct x.accountId := by
  induction l generalizing st with
  | nil => exact hInv
  | cons t rest ih =>
    simp only [List.foldl_cons]
    refine ih (st.saveTransaction (f t) now) ?_ ?_
    · intro u hu
      rw [hasAcct_saveTransaction]
      exact hFK u (List.mem_cons_of_mem t hu)
    · intro x hx
      rcases mem_txs_saveTransaction _ _ _ _ hx with h | ⟨y, hy, hxy⟩
      · rw [h, hasAcct_saveTransaction]
        exact hFK t (List.mem_cons_self t rest)
      · rw [hxy, hasAcct_saveTransaction]
        exact hInv y hy

/-- The currency overlay/write-back of `getCurrencies` leaves accounts and
transactions untouched. -/
theorem getCurrenciesRun_accounts (s : Store) :
    (s.getCurrenciesRun).2.accounts = s.accounts ∧
    (s.getCurrenciesRun).2.transactions = s.transactions := by
  unfold Store.getCurrenciesRun
  dsimp only
  split <;> exact ⟨rfl, rfl⟩

/-- The post-wipe currency restore leaves accounts and transactions
untouched. -/
theorem restoreCustomCurrencies_state (cc : List Currency) (s : Store) :
    (restoreCustomCurrencies cc s).accounts = s.accounts ∧
    (restoreCustomCurrencies cc s).transactions = s.transactions := by
  unfold restoreCustomCurrencies
  split
  · exact ⟨rfl, rfl⟩
  · exact ⟨(getCurrenciesRun_accounts s).1, (getCurrenciesRun_accounts s).2⟩

/-- The custom-currency pre-step leaves accounts and transactions
untouched. -/
theorem importCustomCurrencies_state (cc : List Currency) (s : Store) :
    (importCustomCurrencies cc s).accounts = s.accounts ∧
    (importCustomCurrencies cc s).transactions = s.transactions := by
  unfold importCustomCurrencies
  split
  · exact ⟨rfl, rfl⟩
  · exact ⟨(getCurrenciesRun_accounts s).1, (getCurrenciesRun_accounts s).2⟩

set_option maxHeartbeats 2000000 in
/-- C1: after a Replace-policy reconciliation of a snapshot in which every
transaction's `accountId` appears among the snapshot's accounts, every
persisted transaction's `accountId` is the id of some persisted account: the
engine saves each account while recording an old-id-to-persisted-id mapping
and rewrites each transaction through that mapping before saving it. -/
theorem replace_reconciliation_fk_integrity (d : ImportData) (o : ImportOptions)
    (now : Int) (s : Store)
    (hrep : o.replaceExistingData = true)
    (hfk : ∀ t ∈ d.transactions, ∃ a ∈ d.accounts, a.id = t.accountId)
    (t' : Transaction) (ht' : t' ∈ (executeImport d o now s).transactions) :
    (∀ a ∈ d.accounts, ∃ b ∈ (executeImport d o now s).accounts, b.id = a.id) ∧
    ∃ a ∈ (executeImport d o now s).accounts, a.id = t'.accountId := by
  have hswitch : executeImport d o now s =
      executeImportReplace d now
        (importCustomCurrencies ((d.accounts.map Account.currency).filter Currency.isCustom)
          s) := by
    unfold executeImport
    rw [hrep]
    rfl
  rw [hswitch] at ht' ⊢
  unfold executeImportReplace at ht' ⊢
  dsimp only at ht' ⊢
  set base := restoreCustomCurrencies
    ((d.accounts.map Account.currency).filter Currency.isCustom)
    ((importCustomCurrencies ((d.accounts.map Account.currency).filter Currency.isCustom)
      s).clearAllData) with hbase
  have hbase_tx : base.transactions = [] := (restoreCustomCurrencies_state _ _).2
  obtain ⟨hid, _, _, _, hhas, htx⟩ := replaceAccFold d.accounts base [] (by simp)
  constructor
  · intro a ha
    exact txFold_hasAcct now
      (remapTx (d.accounts.foldl
        (fun p a => (p.1.saveAccount a, setId p.2 a.id a.id)) (base, [])).2)
      d.transactions
      (d.accounts.foldl (fun p a => (p.1.saveAccount a, setId p.2 a.id a.id)) (base, [])).1
      a.id (hhas a ha)
  · refine txFoldInvariant now
      (remapTx (d.accounts.foldl
        (fun p a => (p.1.saveAccount a, setId p.2 a.id a.id)) (base, [])).2)
      d.transactions
      (d.accounts.foldl (fun p a => (p.1.saveAccount a, setId p.2 a.id a.id)) (base, [])).1
      ?_ ?_ t' ht'
    · intro t ht
      rw [remapTx_identity _ t hid]
      obtain ⟨a, ha, haid⟩ := hfk t ht
      exact haid ▸ hhas a ha
    · intro x hx
      rw [htx, hbase_tx] at hx
      cases hx

/-- C1 witness: the end-to-end replace scenario — one account, one
transaction referencing it, empty live store. -/
theorem replace_reconciliation_fk_integrity_witness :
    (∀ a ∈ repData.accounts,
      ∃ b ∈ (executeImport repData repOpts 7 emptyStore).accounts, b.id = a.id) ∧
    ∃ a ∈ (executeImport repData repOpts 7 emptyStore).accounts, a.id = repTx.accountId :=
  replace_reconciliation_fk_integrity repData repOpts 7 emptyStore rfl (by decide)
    repTx (by decide)

/-- Remapping does not change the transaction's own id. -/
theorem remapTx_id (m : List (String × String)) (t : Transaction) :
    (remapTx m t).id = t.id := by
  unfold remapTx
  cases lookupId m t.accountId with
  | none => rfl
  | some v =>
    dsimp only
    split <;> rfl

/-- The duplicate heuristic ignores the foreign key, so remapping does not
change it. -/
theorem areTransactionsSimilar_remapTx (x : Transaction) (m : List (String × String))
    (t : Transaction) :
    areTransactionsSimilar x (remapTx m t) = areTransactionsSimilar x t := by
  unfold remapTx
  cases lookupId m t.accountId with
  | none => rfl
  | some v =>
    dsimp only
    split <;> rfl

/-- Rebalancing keeps the account id list. -/
theorem map_id_updateAccountBalance (s : Store) (aid : String) (now : Int) :
    (s.updateAccountBalance aid now).accounts.map Account.id = s.accounts.map Account.id := by
  cases hfind : s.accounts.find? (fun a => a.id = aid) with
  | none => rw [updateAccountBalance_none s aid now hfind]
  | some acc =>
    rw [updateAccountBalance_some s aid now acc hfind]
    dsimp only
    exact map_key_upsertBy Account.id _ s.accounts
      ⟨acc, List.mem_of_find?_eq_some hfind, rfl⟩

/-- `saveTransaction` keeps the account id list. -/
theorem map_id_saveTransaction (s : Store) (t : Transaction) (now : Int) :
    (s.saveTransaction t now).accounts.map Account.id = s.accounts.map Account.id := by
  rw [saveTransaction_eq]
  exact map_id_updateAccountBalance _ _ _

/-- A stored (id, foreign key) pair survives `saveTransaction` of a
transaction with a different id. -/
theorem exists_tx_preserved_ne (s : Store) (t : Transaction) (now : Int) (i e : String)
    (hex : ∃ y ∈ s.transactions, y.id = i ∧ y.accountId = e) (hne : t.id ≠ i) :
    ∃ y ∈ (s.saveTransaction t now).transactions, y.id = i ∧ y.accountId = e := by
  obtain ⟨y, hy, hyi, hye⟩ := hex
  obtain ⟨y', hy', h1, h2⟩ := tx_survives_saveTransaction s t now y hy
    (fun hc => hne (hc.symm.trans hyi))
  exact ⟨y', hy', h1.trans hyi, h2.trans hye⟩

/-- One step of the merge transaction loop, as an explicit conditional. -/
theorem mergeTransactionStep_eq (ex : List Transaction) (skip : Bool)
    (m : List (String × String)) (now : Int) (st : Store) (u : Transaction) :
    mergeTransactionStep ex skip m now st u =
      if (!(ex.any fun x => areTransactionsSimilar x (remapTx m u)) || !skip) = true
      then st.saveTransaction (remapTx m u) now else st := rfl

/-- The merge transaction loop never changes the account id list, whatever
gets skipped or saved. -/
theorem mergeTxFold_map_id (ex : List Transaction) (skip : Bool)
    (m : List (String × String)) (now : Int) (l : List Transaction) (st : Store) :
    (l.foldl (mergeTransactionStep ex skip m now) st).accounts.map Account.id =
      st.accounts.map Account.id := by
  induction l generalizing st with
  | nil => rfl
  | cons u rest ih =>
    rw [List.foldl_cons]
    refine (ih _).trans ?_
    rw [mergeTransactionStep_eq]
    split
    · exact map_id_saveTransaction st (remapTx m u) now
    · rfl

/-- A stored (id, `e`) pair survives the merge transaction loop whenever
every remapped transaction in it either has a different id or also points at
`e` — regardless of which transactions the duplicate check skips. -/
theorem mergeTxFoldPres (ex : List Transaction) (skip : Bool)
    (m : List (String × String)) (now : Int) (i e : String) (l : List Transaction)
    (st : Store)
    (hpres : ∀ u ∈ l, (remapTx m u).id ≠ i ∨ (remapTx m u).accountId = e)
    (hex : ∃ y ∈ st.transactions, y.id = i ∧ y.accountId = e) :
    ∃ y ∈ (l.foldl (mergeTransactionStep ex skip m now) st).transactions,
      y.id = i ∧ y.accountId = e := by
  revert hpres hex
  induction l generalizing st with
  | nil =>
    intro _ hex
    exact hex
  | cons u rest ih =>
    intro hpres hex
    rw [List.foldl_cons, mergeTransactionStep_eq]
    split
    · rcases hpres u (List.mem_cons_self u rest) with hne | hacc
      · exact ih _ (fun v hv => hpres v (List.mem_cons_of_mem u hv))
          (exists_tx_preserved_ne st (remapTx m u) now i e hex hne)
      · exact ih _ (fun v hv => hpres v (List.mem_cons_of_mem u hv))
          (exists_tx_preserved st (remapTx m u) now i e hex hacc)
    · exact ih _ (fun v hv => hpres v (List.mem_cons_of_mem u hv)) hex

/-- A member transaction of the merge loop that is not flagged as a duplicate
is persisted with its remapped foreign key `e`, and survives the rest of the
loop — other members may be flagged and skipped at will. -/
theorem mergeTxFoldMem (ex : List Transaction) (skip : Bool)
    (m : List (String × String)) (now : Int) (e : String) (t : Transaction)
    (l : List Transaction) (st : Store)
    (hmem : t ∈ l)
    (ht_rem : (remapTx m t).accountId = e)
    (ht_nd : (ex.any fun x => areTransactionsSimilar x (remapTx m t)) = false)
    (hpres : ∀ u ∈ l, (remapTx m u).id ≠ t.id ∨ (remapTx m u).accountId = e) :
    ∃ y ∈ (l.foldl (mergeTransactionStep ex skip m now) st).transactions,
      y.id = t.id ∧ y.accountId = e := by
  revert hmem hpres
  induction l generalizing st with
  | nil =>
    intro hmem _
    cases hmem
  | cons u rest ih =>
    intro hmem hpres
    rw [List.foldl_cons]
    rcases List.mem_cons.mp hmem with rfl | hmem'
    · have hsave : mergeTransactionStep ex skip m now st t =
          st.saveTransaction (remapTx m t) now := by
        rw [mergeTransactionStep_eq, ht_nd]
        simp
      rw [hsave]
      refine mergeTxFoldPres ex skip m now t.id e rest _
        (fun v hv => hpres v (List.mem_cons_of_mem t hv)) ?_
      obtain ⟨y, hy, h1, h2⟩ := saved_tx_present st (remapTx m t) now
      exact ⟨y, hy, h1.trans (remapTx_id m t), h2.trans ht_rem⟩
    · exact ih _ hmem' (fun v hv => hpres v (List.mem_cons_of_mem u hv))

/-- `executeImportMerge` as one explicit fold pipeline. -/
theorem executeImportMerge_eq (d : ImportData) (skip : Bool) (now : Int) (s : Store) :
    executeImportMerge d skip now s =
      d.transactions.foldl
        (mergeTransactionStep (s.getTransactionsRun).1 skip
          (d.accounts.foldl (mergeAccountStep s.accounts skip now)
            ((s.getTransactionsRun).2, [])).2 now)
        (d.accounts.foldl (mergeAccountStep s.accounts skip now)
          ((s.getTransactionsRun).2, [])).1 := rfl

/-- C3 (amended): under Merge with skip-duplicates, when the snapshot account
duplicates a live account (first duplicate `E`, non-empty id), no new account
is created, and each snapshot transaction that references the skipped account
and is not itself flagged as a duplicate of a pre-existing live transaction
is persisted with `accountId` equal to `E`'s id — even in mixed imports where
other snapshot transactions are flagged and skipped (the duplicate check runs
against the pre-captured live transaction list).  The only side condition is
that a snapshot transaction sharing this transaction's id also references the
skipped account (trivially true when snapshot ids are distinct). -/
theorem merge_skip_duplicates_attaches (A E : Account) (d : ImportData)
    (o : ImportOptions) (now : Int) (s : Store)
    (ho : o.replaceExistingData = false) (hskip : o.skipDuplicates = true)
    (haccs : d.accounts = [A])
    (hE : s.accounts.find? (isDuplicateAccountOf A) = some E) (hEid : E.id ≠ "")
    (t : Transaction) (ht : t ∈ d.transactions)
    (htA : t.accountId = A.id)
    (htnd : ((s.transactions.map migrateTx).any fun x => areTransactionsSimilar x t) = false)
    (hids : ∀ u ∈ d.transactions, u.id = t.id → u.accountId = A.id) :
    ((executeImport d o now s).accounts.map Account.id = s.accounts.map Account.id) ∧
    ∃ y ∈ (executeImport d o now s).transactions, y.id = t.id ∧ y.accountId = E.id := by
  have hswitch : executeImport d o now s =
      executeImportMerge d o.skipDuplicates now
        (importCustomCurrencies ((d.accounts.map Account.currency).filter Currency.isCustom)
          s) := by
    unfold executeImport
    rw [ho]
    rfl
  rw [hswitch, hskip, executeImportMerge_eq]
  set s1 : Store := importCustomCurrencies
    ((d.accounts.map Account.currency).filter Currency.isCustom) s with hs1def
  have hs1acc : s1.accounts = s.accounts := (importCustomCurrencies_state _ _).1
  have hs1tx : s1.transactions = s.transactions := (importCustomCurrencies_state _ _).2
  rw [haccs]
  simp only [List.foldl_cons, List.foldl_nil]
  have hdup : s1.accounts.any (isDuplicateAccountOf A) = true := by
    rw [hs1acc]
    exact List.any_eq_true.mpr ⟨E, List.mem_of_find?_eq_some hE, List.find?_some hE⟩
  have hfindE : s1.accounts.find? (isDuplicateAccountOf A) = some E := by
    rw [hs1acc]
    exact hE
  have hstep : mergeAccountStep s1.accounts true now ((s1.getTransactionsRun).2, []) A =
      ((s1.getTransactionsRun).2, [(A.id, E.id)]) := by
    simp only [mergeAccountStep]
    rw [hdup, hfindE]
    simp [setId, upsertBy]
  rw [hstep]
  have hrem : ∀ u, u.accountId = A.id → (remapTx [(A.id, E.id)] u).accountId = E.id := by
    intro u hu
    have hlk : lookupId [(A.id, E.id)] u.accountId = some E.id := by
      rw [hu]
      exact lookupId_cons_eq (A.id, E.id) [] A.id rfl
    unfold remapTx
    rw [hlk]
    dsimp only
    rw [if_neg hEid]
  constructor
  · refine (mergeTxFold_map_id (s1.getTransactionsRun).1 true [(A.id, E.id)] now
      d.transactions (s1.getTransactionsRun).2).trans ?_
    rw [getTransactionsRun_snd]
    dsimp only
    rw [hs1acc]
  · refine mergeTxFoldMem (s1.getTransactionsRun).1 true [(A.id, E.id)] now E.id t
      d.transactions (s1.getTransactionsRun).2 ht (hrem t htA) ?_ ?_
    · rw [getTransactionsRun_fst, hs1tx]
      simp only [areTransactionsSimilar_remapTx]
      exact htnd
    · intro u hu
      by_cases hcase : u.id = t.id
      · exact Or.inr (hrem u (hids u hu hcase))
      · exact Or.inl (by rw [remapTx_id]; exact hcase)

/-- C3 witness: the mixed merge scenario — the duplicated account is skipped,
one snapshot transaction is a live duplicate (skipped), and the fresh one is
persisted under the live account's id. -/
theorem merge_skip_duplicates_attaches_witness :
    ((executeImport mergeDataMixed skipOpts 7 mergeStore).accounts.map Account.id =
      mergeStore.accounts.map Account.id) ∧
    ∃ y ∈ (executeImport mergeDataMixed skipOpts 7 mergeStore).transactions,
      y.id = impTFresh.id ∧ y.accountId = liveE.id :=
  merge_skip_duplicates_attaches impA liveE mergeDataMixed skipOpts 7 mergeStore rfl rfl
    rfl (by decide) (by decide) impTFresh (by decide) rfl (by decide) (by decide)

/-- C8: after any `saveTransaction` or `deleteTransaction`, the referenced
account's `totalOwed` equals the sum of its persisted debt amounts and its
`totalOwedToMe` the sum of its persisted credit amounts. -/
theorem cached_totals_consistent (s : Store) (now : Int) :
    (∀ (t : Transaction) (a : Account),
        (s.saveTransaction t now).accounts.find? (fun x => x.id = t.accountId) = some a →
        a.totalOwed = (debtAmounts (s.saveTransaction t now).transactions t.accountId).sum ∧
        a.totalOwedToMe =
          (creditAmounts (s.saveTransaction t now).transactions t.accountId).sum) ∧
    (∀ (tid : String) (tx : Transaction) (a : Account),
        (s.getTransactionsRun).1.find? (fun x => x.id = tid) = some tx →
        (s.deleteTransaction tid now).accounts.find? (fun x => x.id = tx.accountId) = some a →
        a.totalOwed = (debtAmounts (s.deleteTransaction tid now).transactions tx.accountId).sum ∧
        a.totalOwedToMe =
          (creditAmounts (s.deleteTransaction tid now).transactions tx.accountId).sum) := by
  constructor
  · intro t a h
    rw [saveTransaction_eq] at h ⊢
    exact updateAccountBalance_totals _ _ _ _ h
  · intro tid tx a h1 h2
    rw [getTransactionsRun_fst] at h1
    rw [deleteTransaction_eq_some s tid now tx h1] at h2 ⊢
    exact updateAccountBalance_totals _ _ _ _ h2

/-- C8 witness: saving a 50 debt on an account holding one 20 credit leaves
the cached totals at (50, 20), and deleting the lone credit transaction
leaves them at (0, 0). -/
theorem cached_totals_consistent_witness :
    (balAcctAfter.totalOwed =
      (debtAmounts (balStore.saveTransaction balTx 5).transactions balTx.accountId).sum ∧
    balAcctAfter.totalOwedToMe =
      (creditAmounts (balStore.saveTransaction balTx 5).transactions balTx.accountId).sum) ∧
    (balAcctAfterDel.totalOwed =
      (debtAmounts (balStore.deleteTransaction "t0" 9).transactions balTx0.accountId).sum ∧
    balAcctAfterDel.totalOwedToMe =
      (creditAmounts (balStore.deleteTransaction "t0" 9).transactions balTx0.accountId).sum) :=
  ⟨(cached_totals_consistent balStore 5).1 balTx balAcctAfter (by decide),
   (cached_totals_consistent balStore 9).2 "t0" balTx0 balAcctAfterDel (by decide) (by decide)⟩

/-- C10: deleting an account removes it and every transaction referencing it,
and leaves all other accounts and transactions in place. -/
theorem delete_account_cascades (s : Store) (aid : String)
    (hmig : ∀ t ∈ s.transactions, ¬(t.name = "" ∧ t.description ≠ "")) :
    (s.deleteAccount aid).accounts = s.accounts.filter (fun a => a.id ≠ aid) ∧
    (s.deleteAccount aid).transactions = s.transactions.filter (fun t => t.accountId ≠ aid) ∧
    (∀ a ∈ (s.deleteAccount aid).accounts, a.id ≠ aid) ∧
    (∀ t ∈ (s.deleteAccount aid).transactions, t.accountId ≠ aid) ∧
    (∀ a ∈ s.accounts, a.id ≠ aid → a ∈ (s.deleteAccount aid).accounts) ∧
    (∀ t ∈ s.transactions, t.accountId ≠ aid → t ∈ (s.deleteAccount aid).transactions) := by
  have hacc : (s.deleteAccount aid).accounts = s.accounts.filter (fun a => a.id ≠ aid) := by
    unfold Store.deleteAccount
    simp only [getTransactionsRun_snd]
  have htx : (s.deleteAccount aid).transactions =
      s.transactions.filter (fun t => t.accountId ≠ aid) := by
    unfold Store.deleteAccount
    simp only [getTransactionsRun_fst, getTransactionsRun_snd]
    rw [map_migrateTx_eq_self s.transactions hmig]
  refine ⟨hacc, htx, ?_, ?_, ?_, ?_⟩
  · intro a ha
    rw [hacc] at ha
    simpa using (List.mem_filter.mp ha).2
  · intro t ht
    rw [htx] at ht
    simpa using (List.mem_filter.mp ht).2
  · intro a ha hne
    rw [hacc]
    exact List.mem_filter.mpr ⟨ha, by simpa using hne⟩
  · intro t ht hne
    rw [htx]
    exact List.mem_filter.mpr ⟨ht, by simpa using hne⟩

/-- C10 witness: deleting account `a1` of `delStore` removes it and its
transaction and keeps `a2` with its transaction. -/
theorem delete_account_cascades_witness :
    (delStore.deleteAccount "a1").accounts = delStore.accounts.filter (fun a => a.id ≠ "a1") ∧
    (delStore.deleteAccount "a1").transactions =
      delStore.transactions.filter (fun t => t.accountId ≠ "a1") ∧
    (∀ a ∈ (delStore.deleteAccount "a1").accounts, a.id ≠ "a1") ∧
    (∀ t ∈ (delStore.deleteAccount "a1").transactions, t.accountId ≠ "a1") ∧
    (∀ a ∈ delStore.accounts, a.id ≠ "a1" → a ∈ (delStore.deleteAccount "a1").accounts) ∧
    (∀ t ∈ delStore.transactions, t.accountId ≠ "a1" →
      t ∈ (delStore.deleteAccount "a1").transactions) :=
  delete_account_cascades delStore "a1" (by decide)

end LW

namespace CSV

/-- The transaction row mapper only ever emits type `debt` or `credit`. -/
theorem transactionOfRow_type (row : String → String) :
    (transactionOfRow row).type = "debt" ∨ (transactionOfRow row).type = "credit" := by
  unfold transactionOfRow
  dsimp only
  split
  · rename_i h
    exact h
  · exact Or.inl rfl

/-- Projection of the parser output onto its transactions table. -/
theorem parseCSVContent_transactions (nowIso content : String) :
    (parseCSVContent nowIso content).transactions =
      parseTableSection transactionOfRow
        (splitSections (((jsSplit '\n' content).map jsTrim).filter
          (fun l => l ≠ ""))).transactions := rfl

/-- Every element produced by `parseTableSection` is the mapper's image of
some row. -/
theorem mem_parseTableSection {α : Type} (mapper : (String → String) → α)
    (lines : List String) (x : α) (hx : x ∈ parseTableSection mapper lines) :
    ∃ row, x = mapper row := by
  cases lines with
  | nil => simp [parseTableSection] at hx
  | cons hdr rest =>
    simp only [parseTableSection, List.mem_map] at hx
    obtain ⟨line, _, rfl⟩ := hx
    exact ⟨_, rfl⟩

/-- C9: the CSV parser never produces a transaction whose type is outside
`debt`/`credit`: unknown type values are coerced to `debt`. -/
theorem parsed_type_always_valid (nowIso content : String) (t : Transaction)
    (ht : t ∈ (parseCSVContent nowIso content).transactions) :
    t.type = "debt" ∨ t.type = "credit" := by
  rw [parseCSVContent_transactions] at ht
  obtain ⟨row, rfl⟩ := mem_parseTableSection _ _ _ ht
  exact transactionOfRow_type row

/-- C9 witness: the raw text `contentLoan` carries type `loan`; the parsed
transaction's type is `debt`. -/
theorem parsed_type_always_valid_witness :
    txFromLoan.type = "debt" ∨ txFromLoan.type = "credit" :=
  parsed_type_always_valid "N" contentLoan txFromLoan (by decide)

set_option maxRecDepth 100000 in
/-- C2 evaluation: serializing a snapshot whose transaction name holds a
comma, a quote and a line break and parsing it back yields two transactions,
the first with the name truncated at the line break — the quoted field is
torn apart because `parseCSVContent` splits on line breaks before quote-aware
parsing, so the round trip does not reproduce the snapshot. -/
theorem roundtrip_newline_torn :
    bdNL.transactions.map Transaction.name = ["Bob, \"The Rock\" said\nhi"] ∧
    (parseCSVContent "NOW" (createCSVContent "NOW" bdNL)).transactions.length = 2 ∧
    (parseCSVContent "NOW" (createCSVContent "NOW" bdNL)).transactions.map
      Transaction.name = ["Bob, \"The Rock\" said", ""] := by
  refine ⟨rfl, ?_, ?_⟩ <;> decide

/-- Structurally valid accounts contribute no validation errors. -/
theorem accountErrorsFrom_eq_nil (n : Nat) (l : List Account)
    (h : ∀ a ∈ l, a.id ≠ "" ∧ a.name ≠ "" ∧ a.currency.code ≠ "") :
    accountErrorsFrom n l = [] := by
  induction l generalizing n with
  | nil => rfl
  | cons a rest ih =>
    obtain ⟨h1, h2, h3⟩ := h a (List.mem_cons_self a rest)
    have hrest := ih (n + 1) (fun x hx => h x (List.mem_cons_of_mem a hx))
    simp [accountErrorsFrom, h1, h2, h3, hrest]

/-- For transactions whose ids and types are valid, the error list is empty
exactly when no amount is `<= 0` or NaN. -/
theorem transactionErrorsFrom_eq_nil_iff (n : Nat) (l : List Transaction)
    (h : ∀ t ∈ l, t.id ≠ "" ∧ t.accountId ≠ "" ∧ (t.type = "debt" ∨ t.type = "credit")) :
    (transactionErrorsFrom n l = [] ↔
      ∀ t ∈ l, (t.amount.leb (JNum.num 0) || t.amount.isNaNb) = false) := by
  induction l generalizing n with
  | nil => simp [transactionErrorsFrom]
  | cons t rest ih =>
    obtain ⟨h1, h2, h3⟩ := h t (List.mem_cons_self t rest)
    have hrest := ih (n + 1) (fun x hx => h x (List.mem_cons_of_mem t hx))
    by_cases hbad : (t.amount.leb (JNum.num 0) || t.amount.isNaNb) = true
    · simp only [transactionErrorsFrom]
      rw [if_neg (by tauto), if_pos h3, if_pos hbad]
      constructor
      · intro hfalse
        simp at hfalse
      · intro hall
        have := hall t (List.mem_cons_self t rest)
        rw [this] at hbad
        exact absurd hbad (by simp)
    · have hbad' : (t.amount.leb (JNum.num 0) || t.amount.isNaNb) = false :=
        Bool.eq_false_iff.mpr (fun hc => hbad hc)
      simp only [transactionErrorsFrom]
      rw [if_neg (by tauto), if_pos h3, if_neg hbad]
      simp only [List.nil_append, hrest, List.mem_cons]
      constructor
      · intro hall x hx
        rcases hx with hx | hx
        · subst hx
          exact hbad'
        · exact hall x hx
      · intro hall x hx
        exact hall x (Or.inr hx)

/-- C6 (amended): with structurally valid accounts and transactions, the
validator accepts exactly when no transaction amount is `<= 0` or NaN — the
`-Infinity` amount is caught by `<= 0` and NaN by `isNaN`, while `+Infinity`
is not flagged; a finite positive amount produces no error. -/
theorem amount_error_iff (bd : BackupData)
    (hacc : ∀ a ∈ bd.accounts, a.id ≠ "" ∧ a.name ≠ "" ∧ a.currency.code ≠ "")
    (htx : ∀ t ∈ bd.transactions,
      t.id ≠ "" ∧ t.accountId ≠ "" ∧ (t.type = "debt" ∨ t.type = "credit")) :
    (validateBackup bd).isValid = true ↔
      ∀ t ∈ bd.transactions, (t.amount.leb (JNum.num 0) || t.amount.isNaNb) = false := by
  have hAcc := accountErrorsFrom_eq_nil 0 bd.accounts hacc
  have hTx := transactionErrorsFrom_eq_nil_iff 0 bd.transactions htx
  simp only [validateBackup, hAcc, List.nil_append, decide_eq_true_eq,
    List.length_eq_zero]
  exact hTx

/-- C6 witness: a snapshot whose only transaction has a finite positive
amount is accepted. -/
theorem amount_error_iff_witness : (validateBackup bdOk).isValid = true :=
  (amount_error_iff bdOk (by decide) (by decide)).mpr (by decide)

/-- C4: on a snapshot with exactly three independent defects — an account
with an empty name, a transaction with amount `-5`, and a transaction with
type `loan`, everything else valid — the validator accumulates exactly three
errors and rejects the snapshot. -/
theorem validator_reports_all_three_defects (a : Account) (t1 t2 : Transaction)
    (st : AppSettings) (ver exp : String) (ccs : List Currency)
    (ha1 : a.id ≠ "") (ha2 : a.name = "") (ha3 : a.currency.code ≠ "")
    (h1a : t1.id ≠ "") (h1b : t1.accountId ≠ "") (h1c : t1.type = "debt")
    (h1d : t1.amount = JNum.num (-5))
    (h2a : t2.id ≠ "") (h2b : t2.accountId ≠ "") (h2c : t2.type = "loan")
    (h2d : (t2.amount.leb (JNum.num 0) || t2.amount.isNaNb) = false) :
    (validateBackup ⟨ver, exp, [a], [t1, t2], st, ccs⟩).errors.length = 3 ∧
    (validateBackup ⟨ver, exp, [a], [t1, t2], st, ccs⟩).isValid = false := by
  have hbad1 : (t1.amount.leb (JNum.num 0) || t1.amount.isNaNb) = true := by
    rw [h1d]; decide
  have htype2 : ¬(t2.type = "debt" ∨ t2.type = "credit") := by
    rw [h2c]; decide
  simp [validateBackup, accountErrorsFrom, transactionErrorsFrom, ha1, ha2, ha3,
    h1a, h1b, h1c, hbad1, h2a, h2b, htype2, h2d]

/-- C4 witness: the three-defect scenario at concrete records. -/
theorem validator_reports_all_three_defects_witness :
    (validateBackup ⟨"1.0.0", "e", [accEmptyName], [txNegAmount, txLoanType],
      exSettings, []⟩).errors.length = 3 ∧
    (validateBackup ⟨"1.0.0", "e", [accEmptyName], [txNegAmount, txLoanType],
      exSettings, []⟩).isValid = false :=
  validator_reports_all_three_defects accEmptyName txNegAmount txLoanType exSettings
    "1.0.0" "e" [] (by decide) rfl (by decide) (by decide) (by decide) rfl rfl
    (by decide) (by decide) rfl (by decide)

/-- C6 counterexample: a transaction whose amount is positive infinity passes
the validator (`Infinity <= 0` and `isNaN(Infinity)` are both false), so the
claim that non-finite amounts are always flagged is false. -/
theorem amount_error_infinity_not_flagged :
    bdInf.transactions.map Transaction.amount = [JNum.inf] ∧
    (validateBackup bdInf).errors = [] ∧
    (validateBackup bdInf).isValid = true := by
  decide

end CSV

end LedgerWell
